import Mathlib

/-!
Verification of the spatial hit-testing and pointer-event dispatch engine of the
troika repository (WorldBaseFacade pointer pipeline, World3DFacade octree
changeset handling, and the BasicThenable helper).

The JavaScript sources are shallowly embedded as pure Lean functions:

* `sortHits` / `findHoverTarget` embed `WorldBaseFacade._findHoverTarget`
  (the `allHits.sort(...)` comparator and the eligibility scan).
* `bubble` / `firePointerEvent` embed `WorldBaseFacade._firePointerEvent`
  (bubbling dispatch with `propagationStopped` and uncaught handler exceptions,
  the latter modelled by the `err` component of the result).
* `onPointerMotionEvent`, `onPointerActionEvent`, `onDropEvent` embed the
  corresponding `WorldBaseFacade` methods as state transformers that also
  return the ordered list of `_firePointerEvent` dispatches they perform and
  (for action events) whether `preventDefault` was called on the native event.
* `updateOctree` embeds `World3DFacade._updateOctree` over an association-list
  view of the bounding-sphere index.
* `complete` / `tResolve` / `tReject` embed the settlement machinery of
  `BasicThenable`, with external thenables represented as scripts of the
  synchronous calls they make to the two settlement callbacks they are handed.

JavaScript numbers are modelled as `Int` (only ordering and arithmetic
comparisons matter to the verified properties); JS reference identity on facade
objects is modelled as structural equality of `Facade` values (distinct scene
objects carry distinct ids).  Modules of the repository that are referenced but
whose sources are not present (EventRegistry, PointerEventTarget,
BoundingSphereOctree) are modelled from the spec, as marked on each such
definition.
-/

namespace Troika

/-- Scene-object data carried by one node of the facade tree: its id, the
`isPointerEventTarget` marker, the `pointerEvents` flag
(`true`/`false`/undefined), and whether it declares an `onDragStart` handler
property (drag capability). -/
structure FNode where
  fid : Nat
  isPET : Bool
  pointerEvents : Option Bool
  hasOnDragStart : Bool
deriving DecidableEq, Repr

/-- A facade together with its ancestor chain.  The JS objects link to their
parents by reference (`facade.parent`); here the node carries the list of its
ancestors, nearest first, which the `parent` accessor below peels off. -/
structure Facade where
  node : FNode
  ancestors : List FNode
deriving DecidableEq, Repr

def Facade.fid (f : Facade) : Nat := f.node.fid

/-- `facade.parent`: the next facade up the chain, if any. -/
def Facade.parent : Facade → Option Facade
  | ⟨_, []⟩ => none
  | ⟨_, a :: rest⟩ => some ⟨a, rest⟩

/-- The ids of the facade and all its ancestors, in bubbling order. -/
def Facade.chainFids (f : Facade) : List Nat :=
  f.node.fid :: f.ancestors.map (·.fid)

/-- What a registered handler does when invoked: return normally, call
`stopPropagation` on the event, or throw (the `Nat` identifies the thrown
value). -/
inductive HAction where
  | normal : HAction
  | stop : HAction
  | throws : Nat → HAction
deriving DecidableEq, Repr

/-- A registered handler: an id (so invocations can be traced) plus its
behaviour. -/
structure Handler where
  hid : Nat
  action : HAction
deriving DecidableEq, Repr

/-- One entry of the event registry: an event type, the id of the facade the
handler is registered on, and the handler. -/
structure RegEntry where
  etype : String
  fid : Nat
  handler : Handler
deriving DecidableEq, Repr

/-- Modelled from the spec: the `EventRegistry` module is not under `src/`
(only its callers are).  §4.3 describes a mapping from event type and object id
to handlers supporting multiple handlers per object/type in registration
order; it is modelled as the ordered list of registrations. -/
def Registry := List RegEntry

/-- Modelled from the spec: `EventRegistry.hasAnyListenersOfType(type)`, the
O(1) "does anything listen for type X" check of §4.3. -/
def hasAnyListenersOfType (reg : Registry) (etype : String) : Bool :=
  reg.any (fun en => en.etype == etype)

/-- Modelled from the spec: `EventRegistry.forEachFacadeListenerOfType
(facade, type, fn)` visits the handlers registered for `type` on that facade in
registration order; this gives the list it visits. -/
def handlersFor (reg : Registry) (etype : String) (fid : Nat) : List Handler :=
  (reg.filter (fun en => en.etype == etype && en.fid == fid)).map (·.handler)

/-- Modelled from the spec: `EventRegistry.hasFacadeListenersOfType` is not
under `src/`.  Its only call site (`_hasEventHandlerInParentTree`) passes the
event type as the sole argument, so per §4.3 it can only be the
any-listener-of-type existence check. -/
def hasFacadeListenersOfType (reg : Registry) (etype : String) : Bool :=
  hasAnyListenersOfType reg etype

/-- One ray/geometry hit as produced by `getFacadesOnRay`: the resolved facade,
the signed distance along the ray, and the optional tie-break bias. -/
structure Hit where
  facade : Facade
  distance : Int
  distanceBias : Option Int
deriving DecidableEq, Repr

/-- The ordering used by the sort in `_findHoverTarget`:
`(a, b) => (a.distance - b.distance) || ((a.distanceBias || 0) -
(b.distanceBias || 0))`, i.e. `a` sorts no later than `b` iff the comparator is
non-positive. -/
def hitRel (a b : Hit) : Prop :=
  a.distance < b.distance ∨
    (a.distance = b.distance ∧ a.distanceBias.getD 0 ≤ b.distanceBias.getD 0)

instance : DecidableRel hitRel := fun a b => by
  unfold hitRel
  infer_instance

instance : IsTotal Hit hitRel :=
  ⟨fun a b => by unfold hitRel; omega⟩

instance : IsTrans Hit hitRel :=
  ⟨fun a b c h1 h2 => by unfold hitRel at h1 h2 ⊢; omega⟩

/-- `allHits.sort(comparator)` in `_findHoverTarget`: JS `Array.prototype.sort`
is a stable sort by the comparator's total preorder, modelled by a stable sort
(stable sorts of a total preorder produce the same output list). -/
def sortHits (l : List Hit) : List Hit :=
  l.insertionSort hitRel

/-- The list of pointer motion ("hover-class") event types.  Modelled from the
spec: `pointerMotionEventTypes` lives in `PointerEventTarget`, not under
`src/`; §4.4 lists the hover/drag motion events the motion pipeline emits. -/
def pointerMotionEventTypes : List String :=
  ["mousemove", "mouseover", "mouseout",
   "dragstart", "drag", "dragenter", "dragleave", "dragover"]

/-- The list of pointer action event types.  Modelled from the spec:
`pointerActionEventTypes` lives in `PointerEventTarget`, not under `src/`;
§4.4 lists the press/release/click/wheel (and drop) action events. -/
def pointerActionEventTypes : List String :=
  ["mousedown", "mouseup", "click", "dblclick", "wheel", "drop", "dragend"]

/-- Modelled from the spec: `facade.interceptsPointerEvents(eventRegistry)` of
`PointerEventTarget` is not under `src/`.  §4.2: eligible iff
`pointerEvents === true`, or it has a registered listener for a relevant
(pointer) event type and `pointerEvents !== false`. -/
def interceptsPointerEvents (reg : Registry) (f : Facade) : Bool :=
  f.node.pointerEvents == some true ||
    (f.node.pointerEvents != some false &&
      (pointerMotionEventTypes ++ pointerActionEventTypes).any
        (fun t => (handlersFor reg t f.node.fid).length != 0))

/-- `_findHoverTarget(e)`: sort all hits by `(distance, distanceBias)` and scan
for the first whose facade is a pointer event target intercepting pointer
events.  The raw hit list (the result of `getFacadesAtEvent`, which depends on
the scene and the event position) is taken as an input. -/
def findHoverTarget (reg : Registry) (hits : Option (List Hit)) : Option Hit :=
  match hits with
  | none => none
  | some allHits =>
    (sortHits allHits).find? fun h =>
      h.facade.node.isPET && interceptsPointerEvents reg h.facade

/-- The synthetic event fields relevant to dispatch: `type`, the fixed
resolution `target`, the per-step `currentTarget` (both by facade id), and the
two explicit flags. -/
structure SynthEvent where
  etype : String
  target : Nat
  currentTarget : Nat
  propagationStopped : Bool
  defaultPrevented : Bool
deriving DecidableEq, Repr

/-- One handler invocation observed during a dispatch: which handler ran, the
event's `target` and `currentTarget` at that moment, and whether the handler
threw. -/
structure Invocation where
  hid : Nat
  target : Nat
  currentTarget : Nat
  threw : Bool
deriving DecidableEq, Repr

/-- Result of a bubbling dispatch: the handler invocations in order, the facade
ids visited in order, the final event, and the uncaught exception (if a handler
threw, its value propagates to the caller of the dispatch entry point). -/
structure DispatchResult where
  invs : List Invocation
  visited : List Nat
  ev : SynthEvent
  err : Option Nat
deriving DecidableEq, Repr

/-- The per-node loop body of `_firePointerEvent`: `forEachFacadeListenerOfType`
invokes every handler for the type on the current node in order.  A handler
calling `stopPropagation` sets the flag on the event (checked only by the outer
while loop, so the node's remaining handlers still run); a throwing handler
aborts everything immediately (the exception is not caught). -/
def runHandlers (hs : List Handler) (ev : SynthEvent) :
    List Invocation × SynthEvent × Option Nat :=
  match hs with
  | [] => ([], ev, none)
  | h :: rest =>
    match h.action with
    | .throws c => ([⟨h.hid, ev.target, ev.currentTarget, true⟩], ev, some c)
    | .stop =>
      let ev1 := {ev with propagationStopped := true}
      let r := runHandlers rest ev1
      (⟨h.hid, ev.target, ev.currentTarget, false⟩ :: r.1, r.2.1, r.2.2)
    | .normal =>
      let r := runHandlers rest ev
      (⟨h.hid, ev.target, ev.currentTarget, false⟩ :: r.1, r.2.1, r.2.2)

/-- One node visit of `_firePointerEvent`: `newEvent.currentTarget =
currentTarget` followed by `forEachFacadeListenerOfType(currentTarget,
eventType, callHandler)`. -/
def nodeRun (reg : Registry) (etype : String) (ev : SynthEvent) (n : FNode) :
    List Invocation × SynthEvent × Option Nat :=
  runHandlers (handlersFor reg etype n.fid) {ev with currentTarget := n.fid}

/-- The `while (currentTarget && !newEvent.propagationStopped)` walk of
`_firePointerEvent`, structurally recursing along the ancestor list: set
`currentTarget`, run every registered handler for the type on the node, then
continue at the parent. -/
def bubble (reg : Registry) (etype : String) (ev : SynthEvent)
    (node : FNode) (ancestors : List FNode) : DispatchResult :=
  if ev.propagationStopped then ⟨[], [], ev, none⟩
  else
    let r := nodeRun reg etype ev node
    match r.2.2 with
    | some c => ⟨r.1, [node.fid], r.2.1, some c⟩
    | none =>
      match ancestors with
      | [] => ⟨r.1, [node.fid], r.2.1, none⟩
      | a :: rest =>
        let r2 := bubble reg etype r.2.1 a rest
        ⟨r.1 ++ r2.invs, node.fid :: r2.visited, r2.ev, r2.err⟩

/-- `_firePointerEvent(eventType, originalEvent, targetFacade, ...)`: build the
synthetic event (its `propagationStopped`/`defaultPrevented` flags are unset by
the constructor) and dispatch it with bubbling from the target facade. -/
def firePointerEvent (reg : Registry) (etype : String) (tgt : Facade) :
    DispatchResult :=
  bubble reg etype ⟨etype, tgt.fid, tgt.fid, false, false⟩ tgt.node tgt.ancestors

/-- A dispatch record at the granularity the pipeline claims are stated at: one
`_firePointerEvent(eventType, ..., targetFacade, ...)` call, as
`(eventType, target facade id)`. -/
abbrev Fired := String × Nat

/-- `$dragInfo`: the dragged facade and whether `dragstart` has already been
fired.  (The captured `dragStartEvent` synthetic event is determined by the
dragged facade, which is what the dispatch trace records.) -/
structure DragInfo where
  draggedFacade : Facade
  dragStartFired : Bool
deriving DecidableEq, Repr

/-- `$tapInfo`: the tap candidate recorded on a qualifying touch-start. -/
structure TapInfo where
  facade : Facade
  x : Int
  y : Int
  startTime : Int
  isDblClick : Bool
deriving DecidableEq, Repr

/-- The per-pipeline gesture state (`$hoveredFacade`, `$dragInfo`, `$tapInfo`)
plus whether the external drop (release) listeners are attached
(`_toggleDropListeners`). -/
structure PState where
  hoveredFacade : Option Facade
  dragInfo : Option DragInfo
  tapInfo : Option TapInfo
  dropListenersActive : Bool
deriving DecidableEq, Repr

/-- A single touch point's client coordinates. -/
structure Touch where
  clientX : Int
  clientY : Int
deriving DecidableEq, Repr

/-- The native event fields the pipeline reads: `type`, the `touches` and
`changedTouches` lists (empty for mouse events), and whether `event.target` is
the pipeline's own canvas element (read by `_onDropEvent`). -/
structure NEvent where
  etype : String
  touches : List Touch
  changedTouches : List Touch
  onElement : Bool
deriving DecidableEq, Repr

/-- `isTouchEndOrCancel(e)`. -/
def isTouchEndOrCancel (e : NEvent) : Bool :=
  e.etype == "touchend" || e.etype == "touchcancel"

/-- `TAP_DISTANCE_THRESHOLD`. -/
def TAP_DISTANCE_THRESHOLD : Int := 10

/-- `TAP_GESTURE_MAX_DUR` (ms). -/
def TAP_GESTURE_MAX_DUR : Int := 300

/-- `TAP_DBLCLICK_MAX_DUR` (ms). -/
def TAP_DBLCLICK_MAX_DUR : Int := 300

/-- `pointerActionEventTypeMappings`: canonicalize touch action types. -/
def mapActionType (t : String) : String :=
  if t == "touchstart" then "mousedown"
  else if t == "touchend" then "mouseup"
  else if t == "touchcancel" then "mouseup"
  else t

/-- The gate at the top of `_onPointerMotionEvent`:
`pointerMotionEventTypes.some(this.eventRegistry.hasAnyListenersOfType)`. -/
def motionGate (reg : Registry) : Bool :=
  pointerMotionEventTypes.any (hasAnyListenersOfType reg)

/-- The gate in `_onPointerActionEvent`:
`hasAnyListenersOfType('dragstart') ||
pointerActionEventTypes.some(hasAnyListenersOfType)`. -/
def actionGate (reg : Registry) : Bool :=
  hasAnyListenersOfType reg "dragstart" ||
    pointerActionEventTypes.any (hasAnyListenersOfType reg)

/-- The drag block at the top of `_onPointerMotionEvent`: if `$dragInfo` is
set, lazily fire `dragstart` once, then fire `drag`; returns the dispatches
and the updated `$dragInfo`. -/
def motionDragPart (st : PState) : List Fired × Option DragInfo :=
  match st.dragInfo with
  | none => ([], none)
  | some di =>
    ((if di.dragStartFired then [] else [(("dragstart" : String), di.draggedFacade.fid)]) ++
      [(("drag" : String), di.draggedFacade.fid)],
     some {di with dragStartFired := true})

/-- The hover-transition block of `_onPointerMotionEvent`: `mouseout` (and
`dragleave` while dragging) on the previous target, then `mouseover` (and
`dragenter`) on the new one, only when the target changed. -/
def motionTransPart (lastHovered hovered : Option Facade) (dragging : Bool) :
    List Fired :=
  if hovered ≠ lastHovered then
    (match lastHovered with
     | some lh =>
       [(("mouseout" : String), lh.fid)] ++
         (if dragging then [(("dragleave" : String), lh.fid)] else [])
     | none => []) ++
    (match hovered with
     | some h =>
       [(("mouseover" : String), h.fid)] ++
         (if dragging then [(("dragenter" : String), h.fid)] else [])
     | none => [])
  else []

/-- The trailing block of `_onPointerMotionEvent`: `mousemove` (and `dragover`
while dragging) on the current hover target, when there is one. -/
def motionMovePart (hovered : Option Facade) (dragging : Bool) : List Fired :=
  match hovered with
  | some h =>
    [(("mousemove" : String), h.fid)] ++
      (if dragging then [(("dragover" : String), h.fid)] else [])
  | none => []

/-- The tap-cancellation tail of `_onPointerMotionEvent`: on a `touchmove`
whose first changed touch moved more than `TAP_DISTANCE_THRESHOLD` pixels from
the tap start (`sqrt(dx²+dy²) > 10`, equivalently `dx²+dy² > 100`), clear
`$tapInfo`. -/
def tapCancelPart (tap : Option TapInfo) (e : NEvent) : Option TapInfo :=
  match tap with
  | none => none
  | some ti =>
    if e.etype == "touchmove" then
      match e.changedTouches.head? with
      | some t =>
        if (t.clientX - ti.x) ^ 2 + (t.clientY - ti.y) ^ 2 >
            TAP_DISTANCE_THRESHOLD ^ 2 then
          none
        else some ti
      | none => some ti
    else some ti

/-- `_onPointerMotionEvent(e)`: the hover/drag motion pipeline.  `hits` stands
for the scene raycast `getFacadesAtEvent(e)` at this event's position; the
result is the updated state and the ordered `_firePointerEvent` dispatches. -/
def onPointerMotionEvent (reg : Registry) (hits : Option (List Hit))
    (st : PState) (e : NEvent) : PState × List Fired :=
  let gated :=
    if motionGate reg then
      let dragged := motionDragPart st
      let lastHovered := st.hoveredFacade
      let hoverInfo :=
        if e.etype == "mouseout" || isTouchEndOrCancel e then none
        else findHoverTarget reg hits
      let hovered := hoverInfo.map (·.facade)
      let dragging := st.dragInfo.isSome
      ({st with hoveredFacade := hovered, dragInfo := dragged.2},
       dragged.1 ++ motionTransPart lastHovered hovered dragging ++
         motionMovePart hovered dragging)
    else (st, [])
  ({gated.1 with tapInfo := tapCancelPart gated.1.tapInfo e}, gated.2)

/-- The `while (targetFacade)` loop of `_hasEventHandlerInParentTree`,
iterating once per node of the chain.  At each step the source queries
`eventRegistry.hasFacadeListenersOfType(eventType)` — the current facade is
not passed to the check, so the chain only supplies the iteration count. -/
def hasEventHandlerInChain (reg : Registry) (etype : String) :
    List FNode → Bool
  | [] => false
  | _ :: rest =>
    if hasFacadeListenersOfType reg etype then true
    else hasEventHandlerInChain reg etype rest

/-- `_hasEventHandlerInParentTree(targetFacade, eventType)`: walk up the
parent chain starting at the facade itself. -/
def hasEventHandlerInParentTree (reg : Registry) (f : Option Facade)
    (etype : String) : Bool :=
  match f with
  | none => false
  | some fc => hasEventHandlerInChain reg etype (fc.node :: fc.ancestors)

/-- The tap-to-click block of `_onPointerActionEvent`, entered when the click
gate passes: record `$tapInfo` on a single-touch `touchstart`; on a qualifying
`touchend` fire `click` (and `dblclick` when the recorded tap was flagged as a
double-click). -/
def tapBlock (tap : Option TapInfo) (facade : Facade) (e : NEvent)
    (now : Int) : Option TapInfo × List Fired :=
  if e.etype == "touchstart" && e.touches.length == 1 then
    (some ⟨facade,
      (e.touches.head?.map (·.clientX)).getD 0,
      (e.touches.head?.map (·.clientY)).getD 0,
      now,
      match tap with
      | some prev => decide (now - prev.startTime < TAP_DBLCLICK_MAX_DUR)
      | none => false⟩,
     [])
  else
    match tap with
    | some ti =>
      if ti.facade == facade && e.etype == "touchend" &&
          e.touches.length == 0 && e.changedTouches.length == 1 &&
          decide (now - ti.startTime < TAP_GESTURE_MAX_DUR) then
        (some ti,
         [(("click" : String), facade.fid)] ++
           (if ti.isDblClick then [(("dblclick" : String), facade.fid)] else []))
      else (some ti, [])
    | none => (none, [])

/-- `_onPointerActionEvent(e)`: single-touch `touchstart` is first routed
through the motion handler; if the action gate passes, resolve the target,
dispatch the canonical action event, run tap-to-click recognition, arm the
drag gesture for a primary press on a drag-capable facade, and call
`preventDefault` on the native event; finally single-changed-touch
touch-end/cancel is routed through the motion handler.  Returns the updated
state, the dispatch trace, and whether `preventDefault` was called. -/
def onPointerActionEvent (reg : Registry) (hits : Option (List Hit))
    (now : Int) (st : PState) (e : NEvent) :
    PState × List Fired × Bool :=
  let pre :=
    if e.etype == "touchstart" && e.touches.length == 1 then
      onPointerMotionEvent reg hits st e
    else (st, [])
  let acted :=
    if actionGate reg then
      match findHoverTarget reg hits with
      | some hoverInfo =>
        let facade := hoverInfo.facade
        let fireMain : List Fired := [(mapActionType e.etype, facade.fid)]
        let afterTap :=
          if hasEventHandlerInParentTree reg (some facade) "click" ||
              hasEventHandlerInParentTree reg (some facade) "dblclick" then
            let tb := tapBlock pre.1.tapInfo facade e now
            ({pre.1 with tapInfo := tb.1}, tb.2)
          else (pre.1, [])
        let afterDrag :=
          if facade.node.hasOnDragStart &&
              (e.etype == "mousedown" || e.etype == "touchstart") then
            {afterTap.1 with
              dragInfo := some ⟨facade, false⟩, dropListenersActive := true}
          else afterTap.1
        (afterDrag, fireMain ++ afterTap.2, true)
      | none => (pre.1, [], true)
    else (pre.1, [], false)
  let post :=
    if isTouchEndOrCancel e && e.changedTouches.length == 1 then
      onPointerMotionEvent reg hits acted.1 e
    else (acted.1, [])
  (post.1, pre.2 ++ acted.2.1 ++ post.2, acted.2.2)

/-- `_onDropEvent(e)`: while a drag is active, re-resolve the target only when
the release happened on the pipeline's own element, fire `drop` on it if found,
unconditionally fire `dragend` on the dragged facade, detach the external
release listeners and clear `$dragInfo`. -/
def onDropEvent (reg : Registry) (hits : Option (List Hit)) (st : PState)
    (e : NEvent) : PState × List Fired :=
  match st.dragInfo with
  | none => (st, [])
  | some di =>
    let hoverInfo := if e.onElement then findHoverTarget reg hits else none
    ({st with dragInfo := none, dropListenersActive := false},
     (match hoverInfo with
      | some hi => [(("drop" : String), hi.facade.fid)]
      | none => []) ++ [(("dragend" : String), di.draggedFacade.fid)])

/-- A world-space bounding sphere (center and radius). -/
structure Sphere where
  cx : Int
  cy : Int
  cz : Int
  r : Int
deriving DecidableEq, Repr

/-- The per-id view of an `Object3DFacade` as read by `_updateOctree`: whether
the facade is currently tracked in `_object3DFacadesById`, its `isDestroying`
flag, and its current `getBoundingSphere()` result. -/
structure Facade3D where
  fid : Nat
  isDestroying : Bool
  boundingSphere : Option Sphere
deriving DecidableEq, Repr

/-- The bounding-sphere index keyed by facade id.  Modelled from the spec:
`BoundingSphereOctree` is not under `src/`; §4.1 requires `upsert`/`remove`
semantics over `(identifier, sphere)` entries, here an association list. -/
abbrev Octree := List (Nat × Sphere)

/-- Modelled from the spec: `octree.putSphere(facadeId, sphere)` upserts the
entry for the id (§4.1 `upsert`: after it, `fid` maps to `s` and every other
id is unaffected). -/
def putSphere (o : Octree) (fid : Nat) (s : Sphere) : Octree :=
  (fid, s) :: o.filter (fun en => en.1 != fid)

/-- Modelled from the spec: `octree.removeSphere(facadeId)` deletes any entry
for the id; idempotent (§4.1 `remove`). -/
def removeSphere (o : Octree) (fid : Nat) : Octree :=
  o.filter (fun en => en.1 != fid)

/-- Lookup of an id's sphere in the index. -/
def lookupSphere (o : Octree) (fid : Nat) : Option Sphere :=
  (o.find? (fun en => en.1 == fid)).map (·.2)

/-- The pending `_octreeChangeset`: ids queued under `remove` and under `put`
(`_queueForOctreeChange` keys the two maps by `$facadeId`). -/
structure Changeset where
  removeIds : List Nat
  putIds : List Nat
deriving DecidableEq, Repr

/-- `this._object3DFacadesById` as read by `_updateOctree`. -/
def findFacade3D (facades : List Facade3D) (fid : Nat) : Option Facade3D :=
  facades.find? (fun f => f.fid == fid)

/-- The body of the `put` loop of `_updateOctree` for one queued id: skip ids
whose facade is untracked, destroying, or also queued for removal; otherwise
upsert its current bounding sphere, or remove the entry when the sphere is
absent. -/
def applyPut (facades : List Facade3D) (removeIds : List Nat) (o : Octree)
    (fid : Nat) : Octree :=
  match findFacade3D facades fid with
  | some f =>
    if !f.isDestroying && !(removeIds.contains fid) then
      match f.boundingSphere with
      | some s => putSphere o fid s
      | none => removeSphere o fid
    else o
  | none => o

/-- `World3DFacade._updateOctree()`: flush the pending changeset into the
index exactly once — apply every queued removal, then every queued put (with
the skip/downgrade checks), and clear `_octreeChangeset`.  Returns the new
index (created on first use) and the cleared changeset field. -/
def updateOctree (facades : List Facade3D) (changes : Option Changeset)
    (octree : Option Octree) : Option Octree × Option Changeset :=
  match changes with
  | none => (octree, none)
  | some cs =>
    let o0 := octree.getD []
    let o1 := cs.removeIds.foldl removeSphere o0
    let o2 := cs.putIds.foldl (applyPut facades cs.removeIds) o1
    (some o2, none)

/-!  BasicThenable.  External (possibly misbehaving) thenables handed to
`resolve` are represented by the script of synchronous calls they make to the
two settlement callbacks `complete` hands them (`true` for the
fulfill callback, `false` for the reject callback); plain (non-thenable)
values are integers.  Throwing thenables are not modelled — none of the
verified properties depend on the `try/catch` recovery path. -/

/-- A JS value as seen by `BasicThenable.complete`: a plain value or a
thenable whose `then(resolvePromise, rejectPromise)` performs the listed
calls. -/
inductive JSVal where
  | plain : Int → JSVal
  | thenable : List (Bool × JSVal) → JSVal

/-- The closure state of one `BasicThenable()` instance: `state`
(0 pending, 1 fulfilled, -1 rejected), `value`, and the `completeCalled`
counter.  `settles` records each execution of the `state = st; value = val`
assignment, i.e. every time the thenable (re)settles. -/
structure TState where
  state : Int
  value : Option JSVal
  completeCalled : Nat
  settles : List (Int × JSVal)

/-- The freshly constructed instance. -/
def TState.init : TState := ⟨0, none, 0, []⟩

mutual

/-- `complete(st, val)`: bump `completeCalled`; when fulfilling with a
thenable, adopt it by handing it two fresh one-shot callbacks; otherwise
assign `state`/`value` (recorded in `settles`) and schedule the queue
flush. -/
def complete (st : Int) (val : JSVal) (s : TState) : TState :=
  let s1 := {s with completeCalled := s.completeCalled + 1}
  match val with
  | .plain _ =>
    {s1 with state := st, value := some val, settles := s1.settles ++ [(st, val)]}
  | .thenable script =>
    if st > 0 then runScript script false false s1
    else
      {s1 with state := st, value := some val, settles := s1.settles ++ [(st, val)]}
termination_by sizeOf val

/-- The thenable's synchronous calls to the pair of `oneTime`-wrapped
callbacks created for this adoption: each wrapper runs at most once, but the
two wrappers are independent of one another. -/
def runScript (script : List (Bool × JSVal)) (calledA calledB : Bool)
    (s : TState) : TState :=
  match script with
  | [] => s
  | (isRes, v) :: rest =>
    if isRes then
      if calledA then runScript rest calledA calledB s
      else runScript rest true calledB (complete 1 v s)
    else
      if calledB then runScript rest calledA true s
      else runScript rest calledA true (complete (-1) v s)
termination_by sizeOf script

end

/-- The public `resolve`, `oneTime`-wrapped and guarded by `completeCalled`;
`resolveCalled` is the wrapper's own flag. -/
structure OuterState where
  ts : TState
  resolveCalled : Bool
  rejectCalled : Bool

def OuterState.init : OuterState := ⟨TState.init, false, false⟩

/-- `const resolve = oneTime(val => { if (!completeCalled) complete(1, val) })`. -/
def tResolve (val : JSVal) (s : OuterState) : OuterState :=
  if s.resolveCalled then s
  else
    let s1 := {s with resolveCalled := true}
    if s1.ts.completeCalled == 0 then {s1 with ts := complete 1 val s1.ts} else s1

/-- `const reject = oneTime(reason => { if (!completeCalled) complete(-1, reason) })`. -/
def tReject (val : JSVal) (s : OuterState) : OuterState :=
  if s.rejectCalled then s
  else
    let s1 := {s with rejectCalled := true}
    if s1.ts.completeCalled == 0 then {s1 with ts := complete (-1) val s1.ts} else s1

/-- The `hovered` value computed by `_onPointerMotionEvent`: forced to null on
`mouseout`/touch-end/cancel events, otherwise the facade of the resolved hover
target. -/
def motionHoverResult (reg : Registry) (hits : Option (List Hit)) (e : NEvent) :
    Option Facade :=
  (if e.etype == "mouseout" || isTouchEndOrCancel e then none
   else findHoverTarget reg hits).map (·.facade)

/-!  Theorems. -/

/-- C1.  The hits delivered to target selection by `_findHoverTarget` are the
input hits sorted ascending by `distance`, ties broken ascending by
`distanceBias` (default 0): the sorted list is pairwise ordered by that
two-key order, it is a permutation of the candidate hits, and two hits with
equal distance and equal bias keep their relative order from the input (JS
`Array.prototype.sort` is stable and deterministic), so tie order is the same
across repeated calls on identical input. -/
theorem C1_pick_order (l : List Hit) :
    List.Pairwise
      (fun a b : Hit => a.distance < b.distance ∨
        (a.distance = b.distance ∧
          a.distanceBias.getD 0 ≤ b.distanceBias.getD 0))
      (sortHits l) ∧
    (sortHits l).Perm l ∧
    (∀ a b : Hit, a.distance = b.distance →
      a.distanceBias.getD 0 = b.distanceBias.getD 0 →
      List.Sublist [a, b] l → List.Sublist [a, b] (sortHits l)) := by
  refine ⟨?_, List.perm_insertionSort hitRel l, ?_⟩
  · exact List.Pairwise.imp (fun hab => hab) (List.sorted_insertionSort hitRel l)
  · intro a b hd hb hsub
    exact List.pair_sublist_insertionSort (by unfold hitRel; omega) hsub

/-- Witness for C1 at a concrete tie: two hits with equal distance and equal
bias keep their input order in the sorted output. -/
theorem C1_pick_order_witness :
    ((⟨⟨⟨1, true, some true, false⟩, []⟩, 3, some 2⟩ : Hit).distance =
      (⟨⟨⟨2, true, some true, false⟩, []⟩, 3, some 2⟩ : Hit).distance ∧
     (⟨⟨⟨1, true, some true, false⟩, []⟩, 3, some 2⟩ : Hit).distanceBias.getD 0 =
      (⟨⟨⟨2, true, some true, false⟩, []⟩, 3, some 2⟩ : Hit).distanceBias.getD 0 ∧
     List.Sublist
       [(⟨⟨⟨1, true, some true, false⟩, []⟩, 3, some 2⟩ : Hit),
        ⟨⟨⟨2, true, some true, false⟩, []⟩, 3, some 2⟩]
       [(⟨⟨⟨1, true, some true, false⟩, []⟩, 3, some 2⟩ : Hit),
        ⟨⟨⟨2, true, some true, false⟩, []⟩, 3, some 2⟩]) ∧
    List.Sublist
      [(⟨⟨⟨1, true, some true, false⟩, []⟩, 3, some 2⟩ : Hit),
       ⟨⟨⟨2, true, some true, false⟩, []⟩, 3, some 2⟩]
      (sortHits
        [(⟨⟨⟨1, true, some true, false⟩, []⟩, 3, some 2⟩ : Hit),
         ⟨⟨⟨2, true, some true, false⟩, []⟩, 3, some 2⟩]) :=
  ⟨⟨rfl, rfl, List.Sublist.refl _⟩,
   (C1_pick_order
     [⟨⟨⟨1, true, some true, false⟩, []⟩, 3, some 2⟩,
      ⟨⟨⟨2, true, some true, false⟩, []⟩, 3, some 2⟩]).2.2 _ _ rfl rfl
     (List.Sublist.refl _)⟩

theorem motion_fired_eq (reg : Registry) (hits : Option (List Hit))
    (st : PState) (e : NEvent) (hGate : motionGate reg = true) :
    (onPointerMotionEvent reg hits st e).2 =
      (motionDragPart st).1 ++
        motionTransPart st.hoveredFacade (motionHoverResult reg hits e)
          st.dragInfo.isSome ++
        motionMovePart (motionHoverResult reg hits e) st.dragInfo.isSome := by
  simp only [onPointerMotionEvent, motionHoverResult, hGate, if_true]

theorem motion_state_eq (reg : Registry) (hits : Option (List Hit))
    (st : PState) (e : NEvent) (hGate : motionGate reg = true) :
    (onPointerMotionEvent reg hits st e).1 =
      {st with hoveredFacade := motionHoverResult reg hits e,
               dragInfo := (motionDragPart st).2,
               tapInfo := tapCancelPart st.tapInfo e} := by
  simp only [onPointerMotionEvent, motionHoverResult, hGate, if_true]

theorem motion_nogate (reg : Registry) (hits : Option (List Hit))
    (st : PState) (e : NEvent) (hGate : motionGate reg = false) :
    onPointerMotionEvent reg hits st e =
      ({st with tapInfo := tapCancelPart st.tapInfo e}, []) := by
  simp only [onPointerMotionEvent, hGate, Bool.false_eq_true, if_false]

theorem motionDragPart_types (st : PState) :
    ∀ p ∈ (motionDragPart st).1, p.1 = "dragstart" ∨ p.1 = "drag" := by
  intro p hp
  cases hdi : st.dragInfo with
  | none => simp [motionDragPart, hdi] at hp
  | some di =>
    cases hf : di.dragStartFired with
    | false =>
      simp only [motionDragPart, hdi, hf] at hp
      simp only [Bool.false_eq_true, if_false, List.cons_append, List.nil_append,
        List.mem_cons, List.not_mem_nil, or_false] at hp
      rcases hp with hp | hp <;> subst hp <;> simp
    | true =>
      simp only [motionDragPart, hdi, hf] at hp
      simp only [if_true, List.nil_append, List.mem_cons, List.not_mem_nil,
        or_false] at hp
      subst hp
      simp

theorem motionTransPart_types (lh hv : Option Facade) (d : Bool) :
    ∀ p ∈ motionTransPart lh hv d,
      p.1 = "mouseout" ∨ p.1 = "dragleave" ∨ p.1 = "mouseover" ∨
        p.1 = "dragenter" := by
  intro p hp
  unfold motionTransPart at hp
  split at hp
  · cases lh <;> cases hv <;> cases d <;> simp at hp <;>
      rcases hp with hp | hp | hp | hp <;> simp_all
  · simp at hp

theorem motionMovePart_types (hv : Option Facade) (d : Bool) :
    ∀ p ∈ motionMovePart hv d, p.1 = "mousemove" ∨ p.1 = "dragover" := by
  intro p hp
  cases hv <;> cases d <;> simp [motionMovePart] at hp <;>
    rcases hp with hp | hp <;> simp_all

theorem motionTransPart_self (lh hv : Option Facade) (d : Bool)
    (h : hv = lh) : motionTransPart lh hv d = [] := by
  simp [motionTransPart, h]

theorem motionTransPart_mem_out (lh hv : Option Facade) (d : Bool) (l : Facade)
    (hne : hv ≠ lh) (hlh : lh = some l) :
    (("mouseout" : String), l.fid) ∈ motionTransPart lh hv d := by
  subst hlh
  cases hv <;> cases d <;> simp [motionTransPart, hne]

theorem motionTransPart_mem_over (lh hv : Option Facade) (d : Bool) (h : Facade)
    (hne : hv ≠ lh) (hhv : hv = some h) :
    (("mouseover" : String), h.fid) ∈ motionTransPart lh hv d := by
  subst hhv
  cases lh <;> cases d <;> simp [motionTransPart, hne]

theorem motionTransPart_sub (lh hv : Option Facade) (d : Bool) (l h : Facade)
    (hne : hv ≠ lh) (hlh : lh = some l) (hhv : hv = some h) :
    List.Sublist [(("mouseout" : String), l.fid), (("mouseover" : String), h.fid)]
      (motionTransPart lh hv d) := by
  subst hlh; subst hhv
  cases d <;> simp only [motionTransPart, if_pos hne, List.append_assoc] <;>
    simp only [List.nil_append, List.singleton_append, List.cons_append]
  · exact List.Sublist.cons₂ _ (List.Sublist.cons₂ _ (List.nil_sublist _))
  · exact List.Sublist.cons₂ _
      (List.Sublist.cons _ (List.Sublist.cons₂ _ (List.nil_sublist _)))

theorem motionMovePart_mem (hv : Option Facade) (d : Bool) (h : Facade)
    (hhv : hv = some h) :
    (("mousemove" : String), h.fid) ∈ motionMovePart hv d ∧
      (d = true → (("dragover" : String), h.fid) ∈ motionMovePart hv d) := by
  subst hhv
  cases d <;> simp [motionMovePart]

/-- C2.  For a motion event processed while some hover-class listener is
registered: the state records the newly resolved hover target; if it differs
from the previous one, `mouseout` is dispatched on the previous target and any
`mouseover` on the new target comes only after it in the dispatch sequence; if
it is unchanged, no `mouseout` or `mouseover` is dispatched; and whenever a
hover target exists after the transition, `mousemove` (plus `dragover` during
a drag) is dispatched on it. -/
theorem C2_hover_events (reg : Registry) (hits : Option (List Hit))
    (st : PState) (e : NEvent) (hGate : motionGate reg = true) :
    (onPointerMotionEvent reg hits st e).1.hoveredFacade =
      motionHoverResult reg hits e ∧
    (motionHoverResult reg hits e ≠ st.hoveredFacade →
      (∀ lh, st.hoveredFacade = some lh →
        (("mouseout" : String), lh.fid) ∈ (onPointerMotionEvent reg hits st e).2 ∧
        ∀ h, motionHoverResult reg hits e = some h →
          List.Sublist
            [(("mouseout" : String), lh.fid), (("mouseover" : String), h.fid)]
            (onPointerMotionEvent reg hits st e).2) ∧
      (∀ h, motionHoverResult reg hits e = some h →
        (("mouseover" : String), h.fid) ∈ (onPointerMotionEvent reg hits st e).2)) ∧
    (motionHoverResult reg hits e = st.hoveredFacade →
      ∀ p ∈ (onPointerMotionEvent reg hits st e).2,
        p.1 ≠ "mouseout" ∧ p.1 ≠ "mouseover") ∧
    (∀ h, motionHoverResult reg hits e = some h →
      (("mousemove" : String), h.fid) ∈ (onPointerMotionEvent reg hits st e).2 ∧
      (st.dragInfo.isSome = true →
        (("dragover" : String), h.fid) ∈ (onPointerMotionEvent reg hits st e).2)) := by
  rw [motion_fired_eq reg hits st e hGate, motion_state_eq reg hits st e hGate]
  refine ⟨rfl, ?_, ?_, ?_⟩
  · intro hne
    constructor
    · intro lh hlh
      constructor
      · exact List.mem_append_left _ (List.mem_append_right _
          (motionTransPart_mem_out _ _ _ lh hne hlh))
      · intro h hh
        have hsub := motionTransPart_sub st.hoveredFacade
          (motionHoverResult reg hits e) st.dragInfo.isSome lh h hne hlh hh
        exact hsub.trans ((List.sublist_append_right _ _).trans
          (List.sublist_append_left _ _))
    · intro h hh
      exact List.mem_append_left _ (List.mem_append_right _
        (motionTransPart_mem_over _ _ _ h hne hh))
  · intro heq p hp
    rw [motionTransPart_self _ _ _ heq, List.append_nil] at hp
    rcases List.mem_append.mp hp with hp | hp
    · rcases motionDragPart_types st p hp with h | h <;> rw [h] <;>
        exact ⟨by decide, by decide⟩
    · rcases motionMovePart_types _ _ p hp with h | h <;> rw [h] <;>
        exact ⟨by decide, by decide⟩
  · intro h hh
    have hm := motionMovePart_mem (motionHoverResult reg hits e)
      st.dragInfo.isSome h hh
    exact ⟨List.mem_append_right _ hm.1,
      fun hd => List.mem_append_right _ (hm.2 hd)⟩

/-- Witness for C2: with a `mouseover` listener registered, moving from
hovering facade 1 to hovering facade 3 dispatches `mouseout` on 1 before
`mouseover` on 3, and `mousemove` on 3. -/
theorem C2_hover_events_witness :
    motionGate [⟨"mouseover", 1, ⟨7, .normal⟩⟩] = true ∧
    (("mouseout" : String), 1) ∈
      (onPointerMotionEvent [⟨"mouseover", 1, ⟨7, .normal⟩⟩]
        (some [⟨⟨⟨3, true, some true, false⟩, []⟩, 5, none⟩])
        ⟨some ⟨⟨1, true, some true, false⟩, []⟩, none, none, false⟩
        ⟨"mousemove", [], [], true⟩).2 ∧
    List.Sublist [(("mouseout" : String), 1), (("mouseover" : String), 3)]
      (onPointerMotionEvent [⟨"mouseover", 1, ⟨7, .normal⟩⟩]
        (some [⟨⟨⟨3, true, some true, false⟩, []⟩, 5, none⟩])
        ⟨some ⟨⟨1, true, some true, false⟩, []⟩, none, none, false⟩
        ⟨"mousemove", [], [], true⟩).2 ∧
    (("mousemove" : String), 3) ∈
      (onPointerMotionEvent [⟨"mouseover", 1, ⟨7, .normal⟩⟩]
        (some [⟨⟨⟨3, true, some true, false⟩, []⟩, 5, none⟩])
        ⟨some ⟨⟨1, true, some true, false⟩, []⟩, none, none, false⟩
        ⟨"mousemove", [], [], true⟩).2 := by
  have h := C2_hover_events [⟨"mouseover", 1, ⟨7, .normal⟩⟩]
    (some [⟨⟨⟨3, true, some true, false⟩, []⟩, 5, none⟩])
    ⟨some ⟨⟨1, true, some true, false⟩, []⟩, none, none, false⟩
    ⟨"mousemove", [], [], true⟩ (by decide)
  have hne : motionHoverResult [⟨"mouseover", 1, ⟨7, .normal⟩⟩]
      (some [⟨⟨⟨3, true, some true, false⟩, []⟩, 5, none⟩])
      ⟨"mousemove", [], [], true⟩ ≠
      (⟨some ⟨⟨1, true, some true, false⟩, []⟩, none, none, false⟩ : PState).hoveredFacade := by
    decide
  have hh : motionHoverResult [⟨"mouseover", 1, ⟨7, .normal⟩⟩]
      (some [⟨⟨⟨3, true, some true, false⟩, []⟩, 5, none⟩])
      ⟨"mousemove", [], [], true⟩ = some ⟨⟨3, true, some true, false⟩, []⟩ := by
    decide
  refine ⟨by decide, ?_, ?_, ?_⟩
  · exact ((h.2.1 hne).1 _ rfl).1
  · exact ((h.2.1 hne).1 _ rfl).2 _ hh
  · exact (h.2.2.2 _ hh).1

theorem runHandlers_fields (hs : List Handler) (ev : SynthEvent) :
    ∀ i ∈ (runHandlers hs ev).1,
      i.target = ev.target ∧ i.currentTarget = ev.currentTarget := by
  induction hs generalizing ev with
  | nil => intro i hi; simp [runHandlers] at hi
  | cons h rest ih =>
    intro i hi
    cases ha : h.action with
    | throws c =>
      simp only [runHandlers, ha] at hi
      simp only [List.mem_singleton] at hi
      subst hi; exact ⟨rfl, rfl⟩
    | stop =>
      simp only [runHandlers, ha] at hi
      rcases List.mem_cons.mp hi with hi | hi
      · subst hi; exact ⟨rfl, rfl⟩
      · simpa using ih {ev with propagationStopped := true} i hi
    | normal =>
      simp only [runHandlers, ha] at hi
      rcases List.mem_cons.mp hi with hi | hi
      · subst hi; exact ⟨rfl, rfl⟩
      · exact ih ev i hi

theorem runHandlers_ev_target (hs : List Handler) (ev : SynthEvent) :
    (runHandlers hs ev).2.1.target = ev.target ∧
      (runHandlers hs ev).2.1.currentTarget = ev.currentTarget := by
  induction hs generalizing ev with
  | nil => simp [runHandlers]
  | cons h rest ih =>
    cases ha : h.action with
    | throws c => simp [runHandlers, ha]
    | stop =>
      simp only [runHandlers, ha]
      simpa using ih {ev with propagationStopped := true}
    | normal =>
      simp only [runHandlers, ha]
      exact ih ev

theorem runHandlers_flag_mono (hs : List Handler) (ev : SynthEvent)
    (h : ev.propagationStopped = true) :
    (runHandlers hs ev).2.1.propagationStopped = true := by
  induction hs generalizing ev with
  | nil => simpa [runHandlers] using h
  | cons hd rest ih =>
    cases ha : hd.action with
    | throws c => simpa [runHandlers, ha] using h
    | stop =>
      simp only [runHandlers, ha]
      exact ih {ev with propagationStopped := true} rfl
    | normal =>
      simp only [runHandlers, ha]
      exact ih ev h

theorem runHandlers_err_none_map (hs : List Handler) (ev : SynthEvent)
    (h : (runHandlers hs ev).2.2 = none) :
    (runHandlers hs ev).1.map (fun i => (i.hid, i.currentTarget)) =
      hs.map (fun x => (x.hid, ev.currentTarget)) := by
  induction hs generalizing ev with
  | nil => simp [runHandlers]
  | cons hd rest ih =>
    cases ha : hd.action with
    | throws c => simp [runHandlers, ha] at h
    | stop =>
      simp only [runHandlers, ha] at h ⊢
      simp only [List.map_cons]
      have := ih {ev with propagationStopped := true} h
      simpa using this
    | normal =>
      simp only [runHandlers, ha] at h ⊢
      simp only [List.map_cons]
      rw [ih ev h]

theorem runHandlers_err_none_threw (hs : List Handler) (ev : SynthEvent)
    (h : (runHandlers hs ev).2.2 = none) :
    ∀ i ∈ (runHandlers hs ev).1, i.threw = false := by
  induction hs generalizing ev with
  | nil => intro i hi; simp [runHandlers] at hi
  | cons hd rest ih =>
    intro i hi
    cases ha : hd.action with
    | throws c => simp [runHandlers, ha] at h
    | stop =>
      simp only [runHandlers, ha] at h hi
      rcases List.mem_cons.mp hi with hi | hi
      · subst hi; rfl
      · exact ih {ev with propagationStopped := true} h i hi
    | normal =>
      simp only [runHandlers, ha] at h hi
      rcases List.mem_cons.mp hi with hi | hi
      · subst hi; rfl
      · exact ih ev h i hi

theorem runHandlers_err_some (hs : List Handler) (ev : SynthEvent) (c : Nat)
    (h : (runHandlers hs ev).2.2 = some c) :
    ∃ pre inv, (runHandlers hs ev).1 = pre ++ [inv] ∧ inv.threw = true ∧
      ∀ j ∈ pre, j.threw = false := by
  induction hs generalizing ev with
  | nil => simp [runHandlers] at h
  | cons hd rest ih =>
    cases ha : hd.action with
    | throws c2 =>
      refine ⟨[], ⟨hd.hid, ev.target, ev.currentTarget, true⟩, ?_, rfl, ?_⟩
      · simp [runHandlers, ha]
      · intro j hj; simp at hj
    | stop =>
      simp only [runHandlers, ha] at h ⊢
      obtain ⟨pre, inv, heq, hthrew, hpre⟩ := ih {ev with propagationStopped := true} h
      refine ⟨⟨hd.hid, ev.target, ev.currentTarget, false⟩ :: pre, inv, ?_, hthrew, ?_⟩
      · simp [heq]
      · intro j hj
        rcases List.mem_cons.mp hj with hj | hj
        · subst hj; rfl
        · exact hpre j hj
    | normal =>
      simp only [runHandlers, ha] at h ⊢
      obtain ⟨pre, inv, heq, hthrew, hpre⟩ := ih ev h
      refine ⟨⟨hd.hid, ev.target, ev.currentTarget, false⟩ :: pre, inv, ?_, hthrew, ?_⟩
      · simp [heq]
      · intro j hj
        rcases List.mem_cons.mp hj with hj | hj
        · subst hj; rfl
        · exact hpre j hj

theorem runHandlers_stop (hs : List Handler) (ev : SynthEvent)
    (h : ∃ x ∈ hs, x.action = .stop) :
    (runHandlers hs ev).2.1.propagationStopped = true ∨
      (runHandlers hs ev).2.2.isSome = true := by
  induction hs generalizing ev with
  | nil => obtain ⟨x, hx, _⟩ := h; simp at hx
  | cons hd rest ih =>
    cases ha : hd.action with
    | throws c => right; simp [runHandlers, ha]
    | stop =>
      left
      simp only [runHandlers, ha]
      exact runHandlers_flag_mono rest {ev with propagationStopped := true} rfl
    | normal =>
      obtain ⟨x, hx, hxs⟩ := h
      rcases List.mem_cons.mp hx with hx | hx
      · subst hx; rw [ha] at hxs; cases hxs
      · simpa only [runHandlers, ha] using ih ev ⟨x, hx, hxs⟩

theorem nodeRun_fields (reg : Registry) (etype : String) (ev : SynthEvent)
    (n : FNode) : ∀ i ∈ (nodeRun reg etype ev n).1,
      i.target = ev.target ∧ i.currentTarget = n.fid := by
  intro i hi
  have h := runHandlers_fields (handlersFor reg etype n.fid)
    {ev with currentTarget := n.fid} i hi
  simpa using h

theorem nodeRun_ev_target (reg : Registry) (etype : String) (ev : SynthEvent)
    (n : FNode) : (nodeRun reg etype ev n).2.1.target = ev.target := by
  have h := runHandlers_ev_target (handlersFor reg etype n.fid)
    {ev with currentTarget := n.fid}
  simpa using h.1

theorem bubble_stopped (reg : Registry) (etype : String) (ev : SynthEvent)
    (n : FNode) (anc : List FNode) (h : ev.propagationStopped = true) :
    bubble reg etype ev n anc = ⟨[], [], ev, none⟩ := by
  rw [bubble]
  simp [h]

theorem bubble_eq_err (reg : Registry) (etype : String) (ev : SynthEvent)
    (n : FNode) (anc : List FNode) (c : Nat)
    (h : ev.propagationStopped = false)
    (he : (nodeRun reg etype ev n).2.2 = some c) :
    bubble reg etype ev n anc =
      ⟨(nodeRun reg etype ev n).1, [n.fid], (nodeRun reg etype ev n).2.1,
        some c⟩ := by
  rw [bubble]
  simp only [h, Bool.false_eq_true, if_false, he]

theorem bubble_eq_ok_nil (reg : Registry) (etype : String) (ev : SynthEvent)
    (n : FNode) (h : ev.propagationStopped = false)
    (he : (nodeRun reg etype ev n).2.2 = none) :
    bubble reg etype ev n [] =
      ⟨(nodeRun reg etype ev n).1, [n.fid], (nodeRun reg etype ev n).2.1,
        none⟩ := by
  rw [bubble]
  simp only [h, Bool.false_eq_true, if_false, he]

theorem bubble_eq_ok_cons (reg : Registry) (etype : String) (ev : SynthEvent)
    (n a : FNode) (rest : List FNode) (h : ev.propagationStopped = false)
    (he : (nodeRun reg etype ev n).2.2 = none) :
    bubble reg etype ev n (a :: rest) =
      ⟨(nodeRun reg etype ev n).1 ++
          (bubble reg etype (nodeRun reg etype ev n).2.1 a rest).invs,
        n.fid :: (bubble reg etype (nodeRun reg etype ev n).2.1 a rest).visited,
        (bubble reg etype (nodeRun reg etype ev n).2.1 a rest).ev,
        (bubble reg etype (nodeRun reg etype ev n).2.1 a rest).err⟩ := by
  rw [bubble]
  simp only [h, Bool.false_eq_true, if_false, he]

theorem bubble_target (reg : Registry) (etype : String) (anc : List FNode) :
    ∀ (ev : SynthEvent) (n : FNode),
      ∀ i ∈ (bubble reg etype ev n anc).invs, i.target = ev.target := by
  induction anc with
  | nil =>
    intro ev n i hi
    cases hflag : ev.propagationStopped with
    | true => rw [bubble_stopped reg etype ev n [] hflag] at hi; simp at hi
    | false =>
      cases herr : (nodeRun reg etype ev n).2.2 with
      | some c =>
        rw [bubble_eq_err reg etype ev n [] c hflag herr] at hi
        exact (nodeRun_fields reg etype ev n i hi).1
      | none =>
        rw [bubble_eq_ok_nil reg etype ev n hflag herr] at hi
        exact (nodeRun_fields reg etype ev n i hi).1
  | cons a rest ih =>
    intro ev n i hi
    cases hflag : ev.propagationStopped with
    | true => rw [bubble_stopped reg etype ev n _ hflag] at hi; simp at hi
    | false =>
      cases herr : (nodeRun reg etype ev n).2.2 with
      | some c =>
        rw [bubble_eq_err reg etype ev n _ c hflag herr] at hi
        exact (nodeRun_fields reg etype ev n i hi).1
      | none =>
        rw [bubble_eq_ok_cons reg etype ev n a rest hflag herr] at hi
        rcases List.mem_append.mp hi with hi | hi
        · exact (nodeRun_fields reg etype ev n i hi).1
        · rw [ih (nodeRun reg etype ev n).2.1 a i hi]
          exact nodeRun_ev_target reg etype ev n

theorem bubble_visited_prefix (reg : Registry) (etype : String)
    (anc : List FNode) :
    ∀ (ev : SynthEvent) (n : FNode),
      (bubble reg etype ev n anc).visited.IsPrefix
        (n.fid :: anc.map (·.fid)) := by
  induction anc with
  | nil =>
    intro ev n
    cases hflag : ev.propagationStopped with
    | true => rw [bubble_stopped reg etype ev n [] hflag]; exact List.nil_prefix
    | false =>
      cases herr : (nodeRun reg etype ev n).2.2 with
      | some c => rw [bubble_eq_err reg etype ev n [] c hflag herr]; exact ⟨[], rfl⟩
      | none => rw [bubble_eq_ok_nil reg etype ev n hflag herr]; exact ⟨[], rfl⟩
  | cons a rest ih =>
    intro ev n
    cases hflag : ev.propagationStopped with
    | true => rw [bubble_stopped reg etype ev n _ hflag]; exact List.nil_prefix
    | false =>
      cases herr : (nodeRun reg etype ev n).2.2 with
      | some c =>
        rw [bubble_eq_err reg etype ev n _ c hflag herr]
        exact ⟨(a :: rest).map (·.fid), by simp⟩
      | none =>
        rw [bubble_eq_ok_cons reg etype ev n a rest hflag herr]
        obtain ⟨t, ht⟩ := ih (nodeRun reg etype ev n).2.1 a
        exact ⟨t, by simp only [List.map_cons, List.cons_append, ht]⟩

theorem bubble_full_chain (reg : Registry) (etype : String)
    (anc : List FNode) :
    ∀ (ev : SynthEvent) (n : FNode),
      (bubble reg etype ev n anc).err = none →
      (bubble reg etype ev n anc).ev.propagationStopped = false →
      (bubble reg etype ev n anc).visited = n.fid :: anc.map (·.fid) := by
  induction anc with
  | nil =>
    intro ev n herr hflag
    cases hev : ev.propagationStopped with
    | true =>
      rw [bubble_stopped reg etype ev n [] hev] at hflag
      rw [hev] at hflag
      cases hflag
    | false =>
      cases he : (nodeRun reg etype ev n).2.2 with
      | some c =>
        rw [bubble_eq_err reg etype ev n [] c hev he] at herr
        cases herr
      | none => rw [bubble_eq_ok_nil reg etype ev n hev he]; simp
  | cons a rest ih =>
    intro ev n herr hflag
    cases hev : ev.propagationStopped with
    | true =>
      rw [bubble_stopped reg etype ev n _ hev] at hflag
      rw [hev] at hflag
      cases hflag
    | false =>
      cases he : (nodeRun reg etype ev n).2.2 with
      | some c =>
        rw [bubble_eq_err reg etype ev n _ c hev he] at herr
        cases herr
      | none =>
        rw [bubble_eq_ok_cons reg etype ev n a rest hev he] at herr hflag ⊢
        simp only [List.map_cons, List.cons.injEq, true_and]
        exact ih (nodeRun reg etype ev n).2.1 a herr hflag

theorem nodeRun_err_none_map (reg : Registry) (etype : String)
    (ev : SynthEvent) (n : FNode) (h : (nodeRun reg etype ev n).2.2 = none) :
    (nodeRun reg etype ev n).1.map (fun i => (i.hid, i.currentTarget)) =
      (handlersFor reg etype n.fid).map (fun x => (x.hid, n.fid)) := by
  have hm := runHandlers_err_none_map (handlersFor reg etype n.fid)
    {ev with currentTarget := n.fid} h
  simpa using hm

theorem bubble_inv_map (reg : Registry) (etype : String) (anc : List FNode) :
    ∀ (ev : SynthEvent) (n : FNode),
      (bubble reg etype ev n anc).err = none →
      (bubble reg etype ev n anc).invs.map (fun i => (i.hid, i.currentTarget)) =
        (bubble reg etype ev n anc).visited.flatMap
          (fun nf => (handlersFor reg etype nf).map (fun x => (x.hid, nf))) := by
  induction anc with
  | nil =>
    intro ev n herr
    cases hflag : ev.propagationStopped with
    | true => rw [bubble_stopped reg etype ev n [] hflag]; simp
    | false =>
      cases he : (nodeRun reg etype ev n).2.2 with
      | some c =>
        rw [bubble_eq_err reg etype ev n [] c hflag he] at herr
        cases herr
      | none =>
        rw [bubble_eq_ok_nil reg etype ev n hflag he]
        simp only [List.flatMap_cons, List.flatMap_nil, List.append_nil]
        exact nodeRun_err_none_map reg etype ev n he
  | cons a rest ih =>
    intro ev n herr
    cases hflag : ev.propagationStopped with
    | true => rw [bubble_stopped reg etype ev n _ hflag]; simp
    | false =>
      cases he : (nodeRun reg etype ev n).2.2 with
      | some c =>
        rw [bubble_eq_err reg etype ev n _ c hflag he] at herr
        cases herr
      | none =>
        rw [bubble_eq_ok_cons reg etype ev n a rest hflag he] at herr ⊢
        simp only [List.map_append, List.flatMap_cons]
        rw [nodeRun_err_none_map reg etype ev n he,
          ih (nodeRun reg etype ev n).2.1 a herr]

theorem nodeRun_stop (reg : Registry) (etype : String) (ev : SynthEvent)
    (n : FNode) (h : ∃ x ∈ handlersFor reg etype n.fid, x.action = .stop) :
    (nodeRun reg etype ev n).2.1.propagationStopped = true ∨
      (nodeRun reg etype ev n).2.2.isSome = true :=
  runHandlers_stop (handlersFor reg etype n.fid)
    {ev with currentTarget := n.fid} h

theorem bubble_stop_target (reg : Registry) (etype : String) (ev : SynthEvent)
    (n : FNode) (anc : List FNode)
    (hstop : ∃ x ∈ handlersFor reg etype n.fid, x.action = .stop) :
    ∀ i ∈ (bubble reg etype ev n anc).invs, i.currentTarget = n.fid := by
  intro i hi
  cases hflag : ev.propagationStopped with
  | true => rw [bubble_stopped reg etype ev n anc hflag] at hi; simp at hi
  | false =>
    cases he : (nodeRun reg etype ev n).2.2 with
    | some c =>
      rw [bubble_eq_err reg etype ev n anc c hflag he] at hi
      exact (nodeRun_fields reg etype ev n i hi).2
    | none =>
      cases anc with
      | nil =>
        rw [bubble_eq_ok_nil reg etype ev n hflag he] at hi
        exact (nodeRun_fields reg etype ev n i hi).2
      | cons a rest =>
        rw [bubble_eq_ok_cons reg etype ev n a rest hflag he] at hi
        have hmid : (nodeRun reg etype ev n).2.1.propagationStopped = true := by
          rcases nodeRun_stop reg etype ev n hstop with hh | hh
          · exact hh
          · rw [he] at hh; cases hh
        rw [bubble_stopped reg etype _ a rest hmid] at hi
        simp only [List.append_nil] at hi
        exact (nodeRun_fields reg etype ev n i hi).2

theorem nodeRun_err_none_threw (reg : Registry) (etype : String)
    (ev : SynthEvent) (n : FNode) (h : (nodeRun reg etype ev n).2.2 = none) :
    ∀ i ∈ (nodeRun reg etype ev n).1, i.threw = false :=
  runHandlers_err_none_threw (handlersFor reg etype n.fid)
    {ev with currentTarget := n.fid} h

theorem bubble_threw_none (reg : Registry) (etype : String) (anc : List FNode) :
    ∀ (ev : SynthEvent) (n : FNode),
      (bubble reg etype ev n anc).err = none →
      ∀ i ∈ (bubble reg etype ev n anc).invs, i.threw = false := by
  induction anc with
  | nil =>
    intro ev n herr i hi
    cases hflag : ev.propagationStopped with
    | true => rw [bubble_stopped reg etype ev n [] hflag] at hi; simp at hi
    | false =>
      cases he : (nodeRun reg etype ev n).2.2 with
      | some c =>
        rw [bubble_eq_err reg etype ev n [] c hflag he] at herr
        cases herr
      | none =>
        rw [bubble_eq_ok_nil reg etype ev n hflag he] at hi
        exact nodeRun_err_none_threw reg etype ev n he i hi
  | cons a rest ih =>
    intro ev n herr i hi
    cases hflag : ev.propagationStopped with
    | true => rw [bubble_stopped reg etype ev n _ hflag] at hi; simp at hi
    | false =>
      cases he : (nodeRun reg etype ev n).2.2 with
      | some c =>
        rw [bubble_eq_err reg etype ev n _ c hflag he] at herr
        cases herr
      | none =>
        rw [bubble_eq_ok_cons reg etype ev n a rest hflag he] at herr hi
        rcases List.mem_append.mp hi with hi | hi
        · exact nodeRun_err_none_threw reg etype ev n he i hi
        · exact ih (nodeRun reg etype ev n).2.1 a herr i hi

theorem bubble_err_last (reg : Registry) (etype : String) (anc : List FNode) :
    ∀ (ev : SynthEvent) (n : FNode) (c : Nat),
      (bubble reg etype ev n anc).err = some c →
      ∃ pre inv, (bubble reg etype ev n anc).invs = pre ++ [inv] ∧
        inv.threw = true ∧ ∀ j ∈ pre, j.threw = false := by
  induction anc with
  | nil =>
    intro ev n c herr
    cases hflag : ev.propagationStopped with
    | true =>
      rw [bubble_stopped reg etype ev n [] hflag] at herr
      cases herr
    | false =>
      cases he : (nodeRun reg etype ev n).2.2 with
      | some c2 =>
        rw [bubble_eq_err reg etype ev n [] c2 hflag he] at herr ⊢
        exact runHandlers_err_some (handlersFor reg etype n.fid)
          {ev with currentTarget := n.fid} c2 he
      | none =>
        rw [bubble_eq_ok_nil reg etype ev n hflag he] at herr
        cases herr
  | cons a rest ih =>
    intro ev n c herr
    cases hflag : ev.propagationStopped with
    | true =>
      rw [bubble_stopped reg etype ev n _ hflag] at herr
      cases herr
    | false =>
      cases he : (nodeRun reg etype ev n).2.2 with
      | some c2 =>
        rw [bubble_eq_err reg etype ev n _ c2 hflag he] at herr ⊢
        exact runHandlers_err_some (handlersFor reg etype n.fid)
          {ev with currentTarget := n.fid} c2 he
      | none =>
        rw [bubble_eq_ok_cons reg etype ev n a rest hflag he] at herr ⊢
        obtain ⟨pre, inv, heq, hthrew, hpre⟩ :=
          ih (nodeRun reg etype ev n).2.1 a c herr
        refine ⟨(nodeRun reg etype ev n).1 ++ pre, inv, ?_, hthrew, ?_⟩
        · simp [heq]
        · intro j hj
          rcases List.mem_append.mp hj with hj | hj
          · exact nodeRun_err_none_threw reg etype ev n he j hj
          · exact hpre j hj

/-- C3.  Dispatch bubbles from the resolved target up the parent chain: every
invocation sees `target` fixed to the resolution target; the nodes visited are
an in-order prefix of the target's ancestor chain; when no handler throws, the
invocations are exactly every registered handler of the event type on each
visited node, in node order, with `currentTarget` set to the node being
visited; when additionally the propagation flag was never set the walk covers
the whole chain; and a `stopPropagation` handler on the target confines all
invocations to the target (no ancestor handler runs). -/
theorem C3_bubbling_dispatch (reg : Registry) (etype : String) (tgt : Facade) :
    (∀ i ∈ (firePointerEvent reg etype tgt).invs, i.target = tgt.fid) ∧
    (firePointerEvent reg etype tgt).visited.IsPrefix tgt.chainFids ∧
    ((firePointerEvent reg etype tgt).err = none →
      (firePointerEvent reg etype tgt).invs.map
          (fun i => (i.hid, i.currentTarget)) =
        (firePointerEvent reg etype tgt).visited.flatMap
          (fun nf => (handlersFor reg etype nf).map (fun x => (x.hid, nf)))) ∧
    ((firePointerEvent reg etype tgt).err = none →
      (firePointerEvent reg etype tgt).ev.propagationStopped = false →
      (firePointerEvent reg etype tgt).visited = tgt.chainFids) ∧
    ((∃ x ∈ handlersFor reg etype tgt.fid, x.action = .stop) →
      ∀ i ∈ (firePointerEvent reg etype tgt).invs,
        i.currentTarget = tgt.fid) := by
  refine ⟨?_, ?_, ?_, ?_, ?_⟩
  · exact bubble_target reg etype tgt.ancestors _ tgt.node
  · exact bubble_visited_prefix reg etype tgt.ancestors _ tgt.node
  · exact bubble_inv_map reg etype tgt.ancestors _ tgt.node
  · exact bubble_full_chain reg etype tgt.ancestors _ tgt.node
  · exact fun hstop => bubble_stop_target reg etype _ tgt.node tgt.ancestors hstop

/-- Witness for C3: with `click` handlers on the target (id 1) and its parent
(id 2) and no stop/throw, the dispatch visits the whole chain `[1, 2]`. -/
theorem C3_bubbling_dispatch_witness :
    (firePointerEvent
        [⟨"click", 1, ⟨7, .normal⟩⟩, ⟨"click", 2, ⟨8, .normal⟩⟩] "click"
        ⟨⟨1, true, some true, false⟩, [⟨2, true, none, false⟩]⟩).err = none ∧
    (firePointerEvent
        [⟨"click", 1, ⟨7, .normal⟩⟩, ⟨"click", 2, ⟨8, .normal⟩⟩] "click"
        ⟨⟨1, true, some true, false⟩, [⟨2, true, none, false⟩]⟩).ev.propagationStopped = false ∧
    (firePointerEvent
        [⟨"click", 1, ⟨7, .normal⟩⟩, ⟨"click", 2, ⟨8, .normal⟩⟩] "click"
        ⟨⟨1, true, some true, false⟩, [⟨2, true, none, false⟩]⟩).visited =
      Facade.chainFids ⟨⟨1, true, some true, false⟩, [⟨2, true, none, false⟩]⟩ :=
  ⟨by decide, by decide,
   (C3_bubbling_dispatch
      [⟨"click", 1, ⟨7, .normal⟩⟩, ⟨"click", 2, ⟨8, .normal⟩⟩] "click"
      ⟨⟨1, true, some true, false⟩, [⟨2, true, none, false⟩]⟩).2.2.2.1
     (by decide) (by decide)⟩

/-- C9.  A handler exception is not caught by the dispatch pipeline: the thrown
value is returned to the immediate caller of the dispatch entry point (the
`err` component), and no further handler — neither the remaining handlers on
the same node nor any ancestor's — is invoked after the throwing one: when an
exception escapes, the throwing invocation is the last invocation, and when no
exception escapes no invocation threw. -/
theorem C9_handler_exception (reg : Registry) (etype : String) (tgt : Facade) :
    ((firePointerEvent reg etype tgt).err = none →
      ∀ i ∈ (firePointerEvent reg etype tgt).invs, i.threw = false) ∧
    (∀ c, (firePointerEvent reg etype tgt).err = some c →
      ∃ pre inv, (firePointerEvent reg etype tgt).invs = pre ++ [inv] ∧
        inv.threw = true ∧ ∀ j ∈ pre, j.threw = false) := by
  constructor
  · exact bubble_threw_none reg etype tgt.ancestors _ tgt.node
  · exact fun c => bubble_err_last reg etype tgt.ancestors _ tgt.node c

/-- Witness for C9: a throwing `click` handler on the target, with another
handler behind it on the same node and one on the parent, propagates its value
and is the last invocation performed. -/
theorem C9_handler_exception_witness :
    (firePointerEvent
        [⟨"click", 1, ⟨7, .throws 42⟩⟩, ⟨"click", 1, ⟨9, .normal⟩⟩,
         ⟨"click", 2, ⟨8, .normal⟩⟩] "click"
        ⟨⟨1, true, some true, false⟩, [⟨2, true, none, false⟩]⟩).err = some 42 ∧
    ∃ pre inv,
      (firePointerEvent
          [⟨"click", 1, ⟨7, .throws 42⟩⟩, ⟨"click", 1, ⟨9, .normal⟩⟩,
           ⟨"click", 2, ⟨8, .normal⟩⟩] "click"
          ⟨⟨1, true, some true, false⟩, [⟨2, true, none, false⟩]⟩).invs =
        pre ++ [inv] ∧ inv.threw = true ∧ ∀ j ∈ pre, j.threw = false :=
  ⟨by decide,
   (C9_handler_exception
      [⟨"click", 1, ⟨7, .throws 42⟩⟩, ⟨"click", 1, ⟨9, .normal⟩⟩,
       ⟨"click", 2, ⟨8, .normal⟩⟩] "click"
      ⟨⟨1, true, some true, false⟩, [⟨2, true, none, false⟩]⟩).2 42 (by decide)⟩

theorem hasEventHandlerInChain_false (reg : Registry) (etype : String)
    (h : hasFacadeListenersOfType reg etype = false) :
    ∀ l, hasEventHandlerInChain reg etype l = false := by
  intro l
  induction l with
  | nil => rfl
  | cons a rest ih => simp [hasEventHandlerInChain, h, ih]

/-- C7 (code bug).  The check guarding tap-to-click recognition does not
depend on the target's ancestor chain at all: for any non-null facade,
`_hasEventHandlerInParentTree(facade, type)` equals the registry-wide
"any listener of this type" check, because the loop body never passes the
current facade to `hasFacadeListenersOfType`.  Concretely, with a `click`
listener registered only on the unrelated facade 99 and no `click`/`dblclick`
listener anywhere on the target's chain, a single-touch `touchstart` on facade
1 still records a tap candidate. -/
theorem C7_tap_gate_ignores_ancestors :
    (∀ (reg : Registry) (etype : String) (f : Facade),
      hasEventHandlerInParentTree reg (some f) etype =
        hasAnyListenersOfType reg etype) ∧
    handlersFor [⟨"click", 99, ⟨7, .normal⟩⟩] "click" 1 = [] ∧
    handlersFor [⟨"click", 99, ⟨7, .normal⟩⟩] "dblclick" 1 = [] ∧
    (onPointerActionEvent [⟨"click", 99, ⟨7, .normal⟩⟩]
        (some [⟨⟨⟨1, true, some true, false⟩, []⟩, 5, none⟩]) 0
        ⟨none, none, none, false⟩
        ⟨"touchstart", [⟨0, 0⟩], [⟨0, 0⟩], true⟩).1.tapInfo =
      some ⟨⟨⟨1, true, some true, false⟩, []⟩, 0, 0, 0, false⟩ := by
  refine ⟨?_, by decide, by decide, by decide⟩
  intro reg etype f
  unfold hasEventHandlerInParentTree
  cases hc : hasFacadeListenersOfType reg etype with
  | true =>
    have hc2 : hasAnyListenersOfType reg etype = true := hc
    simp [hasEventHandlerInChain, hc, hc2]
  | false =>
    have hc2 : hasAnyListenersOfType reg etype = false := hc
    simp [hasEventHandlerInChain, hc, hc2,
      hasEventHandlerInChain_false reg etype hc]

/-- C8, amended.  `_onPointerActionEvent` calls `preventDefault` on the native
event exactly when the action-listener gate passes (a `dragstart` listener or
any pointer-action-type listener is registered) — whether or not a hit target
was found.  In particular, whenever a target is found (which can only happen
inside the gate) the default is prevented. -/
theorem C8_prevent_default (reg : Registry) (hits : Option (List Hit))
    (now : Int) (st : PState) (e : NEvent) :
    (onPointerActionEvent reg hits now st e).2.2 = actionGate reg := by
  cases hg : actionGate reg with
  | true =>
    cases hf : findHoverTarget reg hits <;>
      simp [onPointerActionEvent, hg, hf]
  | false => simp [onPointerActionEvent, hg]

/-- Counterexample for C8 as stated: with a `mousedown` listener registered
(the claim's "relevant action listeners are registered") and an event that
resolves to no hit target, `preventDefault` is still called. -/
theorem C8_prevent_default_counterexample :
    actionGate [⟨"mousedown", 1, ⟨7, .normal⟩⟩] = true ∧
    findHoverTarget [⟨"mousedown", 1, ⟨7, .normal⟩⟩] none = none ∧
    (onPointerActionEvent [⟨"mousedown", 1, ⟨7, .normal⟩⟩] none 0
        ⟨none, none, none, false⟩ ⟨"mousedown", [], [], true⟩).2.2 = true := by
  decide

theorem motion_tapInfo (reg : Registry) (hits : Option (List Hit))
    (st : PState) (e : NEvent) :
    (onPointerMotionEvent reg hits st e).1.tapInfo =
      tapCancelPart st.tapInfo e := by
  cases hg : motionGate reg with
  | true => rw [motion_state_eq reg hits st e hg]
  | false => rw [motion_nogate reg hits st e hg]

theorem tapCancelPart_other (tap : Option TapInfo) (e : NEvent)
    (h : (e.etype == "touchmove") = false) : tapCancelPart tap e = tap := by
  cases tap <;> simp [tapCancelPart, h]

theorem motion_types (reg : Registry) (hits : Option (List Hit))
    (st : PState) (e : NEvent) :
    ∀ p ∈ (onPointerMotionEvent reg hits st e).2,
      p.1 = "dragstart" ∨ p.1 = "drag" ∨ p.1 = "mouseout" ∨
        p.1 = "dragleave" ∨ p.1 = "mouseover" ∨ p.1 = "dragenter" ∨
        p.1 = "mousemove" ∨ p.1 = "dragover" := by
  intro p hp
  cases hg : motionGate reg with
  | false => rw [motion_nogate reg hits st e hg] at hp; simp at hp
  | true =>
    rw [motion_fired_eq reg hits st e hg] at hp
    rcases List.mem_append.mp hp with hp | hp
    · rcases List.mem_append.mp hp with hp | hp
      · rcases motionDragPart_types st p hp with h | h <;> simp [h]
      · rcases motionTransPart_types _ _ _ p hp with h | h | h | h <;> simp [h]
    · rcases motionMovePart_types _ _ p hp with h | h <;> simp [h]

theorem motion_countP_click (reg : Registry) (hits : Option (List Hit))
    (st : PState) (e : NEvent) :
    (onPointerMotionEvent reg hits st e).2.countP
      (fun p => p.1 == "click") = 0 := by
  rw [List.countP_eq_zero]
  intro p hp
  rcases motion_types reg hits st e p hp with h|h|h|h|h|h|h|h <;>
    rw [h] <;> decide

theorem motion_countP_dblclick (reg : Registry) (hits : Option (List Hit))
    (st : PState) (e : NEvent) :
    (onPointerMotionEvent reg hits st e).2.countP
      (fun p => p.1 == "dblclick") = 0 := by
  rw [List.countP_eq_zero]
  intro p hp
  rcases motion_types reg hits st e p hp with h|h|h|h|h|h|h|h <;>
    rw [h] <;> decide

/-- C4.  Tap-to-click recognition, per event (with the action gate passing,
the event resolving to target `hi`, and the click/dblclick recognition gate
passing): a single-touch `touchstart` records the tap candidate (target,
touch coordinates, time, and the double-click flag set iff a previous tap
candidate existed and started less than `TAP_DBLCLICK_MAX_DUR` = 300 ms
earlier); a `touchend` with zero remaining touches and exactly one changed
touch fires exactly one `click` iff a tap candidate exists, targets the same
object, and started less than `TAP_GESTURE_MAX_DUR` = 300 ms ago — and
additionally exactly one `dblclick`, after the `click`, iff its double-click
flag was recorded; and a `touchmove` farther than `TAP_DISTANCE_THRESHOLD` =
10 px from the tap start invalidates the pending candidate (so no click can
fire for that sequence). -/
theorem C4_tap_click (reg : Registry) (hits : Option (List Hit)) (now : Int)
    (st : PState) (e : NEvent) (hi : Hit)
    (hGate : actionGate reg = true)
    (hTarget : findHoverTarget reg hits = some hi)
    (hCG : (hasEventHandlerInParentTree reg (some hi.facade) "click" ||
        hasEventHandlerInParentTree reg (some hi.facade) "dblclick") = true) :
    (∀ t, e.etype = "touchstart" → e.touches = [t] →
      (onPointerActionEvent reg hits now st e).1.tapInfo =
        some ⟨hi.facade, t.clientX, t.clientY, now,
          match st.tapInfo with
          | some prev => decide (now - prev.startTime < TAP_DBLCLICK_MAX_DUR)
          | none => false⟩) ∧
    (e.etype = "touchend" → e.touches = [] → e.changedTouches.length = 1 →
      ((onPointerActionEvent reg hits now st e).2.1.countP
          (fun p => p.1 == "click") =
        match st.tapInfo with
        | some ti =>
          if ti.facade = hi.facade ∧ now - ti.startTime < TAP_GESTURE_MAX_DUR
          then 1 else 0
        | none => 0) ∧
      ((onPointerActionEvent reg hits now st e).2.1.countP
          (fun p => p.1 == "dblclick") =
        match st.tapInfo with
        | some ti =>
          if ti.facade = hi.facade ∧
              now - ti.startTime < TAP_GESTURE_MAX_DUR ∧ ti.isDblClick = true
          then 1 else 0
        | none => 0) ∧
      (∀ ti, st.tapInfo = some ti → ti.facade = hi.facade →
        now - ti.startTime < TAP_GESTURE_MAX_DUR → ti.isDblClick = true →
        List.Sublist
          [(("click" : String), hi.facade.fid),
           (("dblclick" : String), hi.facade.fid)]
          (onPointerActionEvent reg hits now st e).2.1)) ∧
    (∀ (e2 : NEvent) (st2 : PState) (ti : TapInfo) (t : Touch),
      st2.tapInfo = some ti → e2.etype = "touchmove" →
      e2.changedTouches.head? = some t →
      (t.clientX - ti.x) ^ 2 + (t.clientY - ti.y) ^ 2 >
        TAP_DISTANCE_THRESHOLD ^ 2 →
      (onPointerMotionEvent reg hits st2 e2).1.tapInfo = none) := by
  refine ⟨?_, ?_, ?_⟩
  · -- touch-start records the tap candidate
    intro t he ht
    have hg1 : (e.etype == "touchstart" && e.touches.length == 1) = true := by
      rw [he, ht]; rfl
    have hg5 : (isTouchEndOrCancel e && e.changedTouches.length == 1) = false := by
      unfold isTouchEndOrCancel; rw [he]; rfl
    have hpre : (onPointerMotionEvent reg hits st e).1.tapInfo = st.tapInfo := by
      rw [motion_tapInfo]
      exact tapCancelPart_other st.tapInfo e (by rw [he]; rfl)
    simp only [onPointerActionEvent, hg1, if_true, hGate, hTarget, hCG, hg5,
      Bool.false_eq_true, if_false, tapBlock]
    rw [hpre, ht]
    simp only [List.head?_cons, Option.map_some, Option.getD_some]
    rw [apply_ite PState.tapInfo]
    simp

  · -- touch-end fires click / dblclick per the recorded candidate
    intro he ht hc
    have hg1 : (e.etype == "touchstart" && e.touches.length == 1) = false := by
      rw [he]; rfl
    have hg5 : (isTouchEndOrCancel e && e.changedTouches.length == 1) = true := by
      unfold isTouchEndOrCancel; rw [he, hc]; rfl
    have hmap : mapActionType e.etype = "mouseup" := by rw [he]; rfl
    cases hti : st.tapInfo with
    | none =>
      simp only [onPointerActionEvent, hg1, Bool.false_eq_true, if_false,
        hGate, if_true, hTarget, hCG, hg5, hmap, tapBlock, hti,
        List.nil_append]
      refine ⟨?_, ?_, ?_⟩
      · simp [List.countP_append, List.countP_cons,
          motion_countP_click]
      · simp [List.countP_append, List.countP_cons,
          motion_countP_dblclick]
      · intro ti hti2
        exact absurd hti2 (by simp)
    | some ti =>
      by_cases hcond : ti.facade = hi.facade ∧
          now - ti.startTime < TAP_GESTURE_MAX_DUR
      · have hbc : (ti.facade == hi.facade && e.etype == "touchend" &&
            e.touches.length == 0 && e.changedTouches.length == 1 &&
            decide (now - ti.startTime < TAP_GESTURE_MAX_DUR)) = true := by
          rw [he, ht, hc]
          simp [hcond.1, hcond.2]
        simp only [onPointerActionEvent, hg1, Bool.false_eq_true, if_false,
          hGate, if_true, hTarget, hCG, hg5, hmap, tapBlock, hti, hbc,
          List.nil_append]
        refine ⟨?_, ?_, ?_⟩
        · cases hdb : ti.isDblClick <;>
            simp [hdb, List.countP_append, List.countP_cons,
              motion_countP_click, hcond.1, hcond.2]
        · cases hdb : ti.isDblClick <;>
            simp [hdb, List.countP_append, List.countP_cons,
              motion_countP_dblclick, hcond.1, hcond.2]
        · intro ti2 hti2 _ _ hdb
          have hti3 : ti2 = ti := by
            injection hti2 with h
            exact h.symm
          subst hti3
          rw [hdb]
          simp only [if_true, List.cons_append, List.nil_append,
            List.singleton_append]
          exact List.Sublist.cons _ (List.sublist_append_left _ _)
      · have hbc : (ti.facade == hi.facade && e.etype == "touchend" &&
            e.touches.length == 0 && e.changedTouches.length == 1 &&
            decide (now - ti.startTime < TAP_GESTURE_MAX_DUR)) = false := by
          rw [he, ht, hc]
          rcases Decidable.not_and_iff_or_not.mp hcond with hx | hx
          · simp [hx]
          · simp [hx]
        simp only [onPointerActionEvent, hg1, Bool.false_eq_true, if_false,
          hGate, if_true, hTarget, hCG, hg5, hmap, tapBlock, hti, hbc,
          List.nil_append]
        refine ⟨?_, ?_, ?_⟩
        · simp [List.countP_append, List.countP_cons, motion_countP_click,
            hcond]
        · have hno : ¬(ti.facade = hi.facade ∧
              now - ti.startTime < TAP_GESTURE_MAX_DUR ∧
              ti.isDblClick = true) := fun hx => hcond ⟨hx.1, hx.2.1⟩
          simp [List.countP_append, List.countP_cons,
            motion_countP_dblclick, hno]
        · intro ti2 hti2 hf2 htime2 _
          have hti3 : ti2 = ti := by
            injection hti2 with h
            exact h.symm
          subst hti3
          exact absurd ⟨hf2, htime2⟩ hcond

  · -- a far touch-move invalidates the pending candidate
    intro e2 st2 ti t hti he2 hct hd
    rw [motion_tapInfo]
    simp [tapCancelPart, hti, he2, hct, hd]

/-- Witness for C4: the spec's tap example — a tap candidate recorded at
(100,100) at t=1000 on facade 1 (which has a `click` listener), released by a
`touchend` at t=1150 with one changed touch, fires exactly one `click`. -/
theorem C4_tap_click_witness :
    actionGate [⟨"click", 1, ⟨7, .normal⟩⟩] = true ∧
    findHoverTarget [⟨"click", 1, ⟨7, .normal⟩⟩]
        (some [⟨⟨⟨1, true, some true, false⟩, []⟩, 5, none⟩]) =
      some ⟨⟨⟨1, true, some true, false⟩, []⟩, 5, none⟩ ∧
    (onPointerActionEvent [⟨"click", 1, ⟨7, .normal⟩⟩]
        (some [⟨⟨⟨1, true, some true, false⟩, []⟩, 5, none⟩]) 1150
        ⟨none, none,
          some ⟨⟨⟨1, true, some true, false⟩, []⟩, 100, 100, 1000, false⟩,
          false⟩
        ⟨"touchend", [], [⟨102, 101⟩], true⟩).2.1.countP
      (fun p => p.1 == "click") = 1 := by
  refine ⟨by decide, by decide, ?_⟩
  have h := C4_tap_click [⟨"click", 1, ⟨7, .normal⟩⟩]
    (some [⟨⟨⟨1, true, some true, false⟩, []⟩, 5, none⟩]) 1150
    ⟨none, none,
      some ⟨⟨⟨1, true, some true, false⟩, []⟩, 100, 100, 1000, false⟩, false⟩
    ⟨"touchend", [], [⟨102, 101⟩], true⟩
    ⟨⟨⟨1, true, some true, false⟩, []⟩, 5, none⟩
    (by decide) (by decide) (by decide)
  rw [(h.2.1 rfl rfl rfl).1]
  decide

theorem countP_fst_eq_zero (l : List Fired) (s : String)
    (h : ∀ p ∈ l, ¬p.1 = s) :
    l.countP (fun p => p.1 == s) = 0 := by
  rw [List.countP_eq_zero]
  intro p hp
  simpa using h p hp

theorem motionTransPart_types_nodrag (lh hv : Option Facade) :
    ∀ p ∈ motionTransPart lh hv false,
      p.1 = "mouseout" ∨ p.1 = "mouseover" := by
  intro p hp
  unfold motionTransPart at hp
  split at hp
  · cases lh <;> cases hv <;> simp at hp <;> rcases hp with hp | hp <;> simp_all
  · simp at hp

theorem motionMovePart_types_nodrag (hv : Option Facade) :
    ∀ p ∈ motionMovePart hv false, p.1 = "mousemove" := by
  intro p hp
  cases hv with
  | none => simp [motionMovePart] at hp
  | some h =>
    simp [motionMovePart] at hp
    simp_all

/-- C5.  Drag lifecycle: on the first motion event while a drag is pending,
`dragstart` is fired (exactly once, lazily) immediately followed by `drag`,
and the state records that `dragstart` has fired; on every later motion while
dragging, exactly one `drag` and no `dragstart` is fired; a primary press
resolving to a drag-capable facade arms the drag state and attaches the
external release listeners; on release, `drop` (when a target resolves on the
pipeline's element) is fired before the unconditional `dragend` on the dragged
facade, after which the drag state is cleared and the release listeners
removed; and a motion event with no drag state fires no drag-class events. -/
theorem C5_drag_lifecycle (reg : Registry) (hits : Option (List Hit))
    (now : Int) (st : PState) (e : NEvent) :
    (∀ di, motionGate reg = true → st.dragInfo = some di →
      di.dragStartFired = false →
      (∃ rest, (onPointerMotionEvent reg hits st e).2 =
        (("dragstart" : String), di.draggedFacade.fid) ::
          (("drag" : String), di.draggedFacade.fid) :: rest) ∧
      (onPointerMotionEvent reg hits st e).2.countP
        (fun p => p.1 == "dragstart") = 1 ∧
      (onPointerMotionEvent reg hits st e).1.dragInfo =
        some ⟨di.draggedFacade, true⟩) ∧
    (∀ di, motionGate reg = true → st.dragInfo = some di →
      di.dragStartFired = true →
      (onPointerMotionEvent reg hits st e).2.countP
        (fun p => p.1 == "dragstart") = 0 ∧
      (onPointerMotionEvent reg hits st e).2.countP
        (fun p => p.1 == "drag") = 1) ∧
    (∀ hi, actionGate reg = true → findHoverTarget reg hits = some hi →
      hi.facade.node.hasOnDragStart = true → e.etype = "mousedown" →
      (onPointerActionEvent reg hits now st e).1.dragInfo =
        some ⟨hi.facade, false⟩ ∧
      (onPointerActionEvent reg hits now st e).1.dropListenersActive = true) ∧
    (∀ di, st.dragInfo = some di →
      (onDropEvent reg hits st e).2 =
        (match (if e.onElement then findHoverTarget reg hits else none) with
         | some hi2 => [(("drop" : String), hi2.facade.fid)]
         | none => []) ++ [(("dragend" : String), di.draggedFacade.fid)] ∧
      (onDropEvent reg hits st e).1.dragInfo = none ∧
      (onDropEvent reg hits st e).1.dropListenersActive = false) ∧
    (st.dragInfo = none →
      ∀ p ∈ (onPointerMotionEvent reg hits st e).2,
        p.1 ≠ "dragstart" ∧ p.1 ≠ "drag" ∧ p.1 ≠ "dragover" ∧
          p.1 ≠ "dragenter" ∧ p.1 ≠ "dragleave") := by
  refine ⟨?_, ?_, ?_, ?_, ?_⟩
  · -- first motion: dragstart then drag
    intro di hGate hdi hdf
    rw [motion_fired_eq reg hits st e hGate, motion_state_eq reg hits st e hGate]
    have hdp : motionDragPart st =
        ([(("dragstart" : String), di.draggedFacade.fid),
          (("drag" : String), di.draggedFacade.fid)],
         some ⟨di.draggedFacade, true⟩) := by
      simp [motionDragPart, hdi, hdf]
    rw [hdp]
    refine ⟨⟨motionTransPart st.hoveredFacade (motionHoverResult reg hits e)
      st.dragInfo.isSome ++
      motionMovePart (motionHoverResult reg hits e) st.dragInfo.isSome,
      by simp⟩, ?_, rfl⟩
    simp only [List.countP_append]
    have h1 : ([(("dragstart" : String), di.draggedFacade.fid),
        (("drag" : String), di.draggedFacade.fid)] : List Fired).countP
        (fun p => p.1 == "dragstart") = 1 := by
      simp [List.countP_cons]
    have h2 : (motionTransPart st.hoveredFacade
        (motionHoverResult reg hits e) st.dragInfo.isSome).countP
        (fun p => p.1 == "dragstart") = 0 := by
      apply countP_fst_eq_zero
      intro p hp
      rcases motionTransPart_types _ _ _ p hp with h | h | h | h <;> simp [h]
    have h3 : (motionMovePart (motionHoverResult reg hits e)
        st.dragInfo.isSome).countP (fun p => p.1 == "dragstart") = 0 := by
      apply countP_fst_eq_zero
      intro p hp
      rcases motionMovePart_types _ _ p hp with h | h <;> simp [h]
    omega
  · -- later motions: drag only
    intro di hGate hdi hdf
    rw [motion_fired_eq reg hits st e hGate]
    have hdp : motionDragPart st =
        ([(("drag" : String), di.draggedFacade.fid)],
         some ⟨di.draggedFacade, true⟩) := by
      simp [motionDragPart, hdi, hdf]
    rw [hdp]
    simp only [List.countP_append]
    have hts : (motionTransPart st.hoveredFacade
        (motionHoverResult reg hits e) st.dragInfo.isSome).countP
          (fun p => p.1 == "dragstart") = 0 ∧
        (motionTransPart st.hoveredFacade
          (motionHoverResult reg hits e) st.dragInfo.isSome).countP
          (fun p => p.1 == "drag") = 0 := by
      constructor <;> apply countP_fst_eq_zero <;> intro p hp <;>
        rcases motionTransPart_types _ _ _ p hp with h | h | h | h <;> simp [h]
    have hms : (motionMovePart (motionHoverResult reg hits e)
        st.dragInfo.isSome).countP (fun p => p.1 == "dragstart") = 0 ∧
        (motionMovePart (motionHoverResult reg hits e)
          st.dragInfo.isSome).countP (fun p => p.1 == "drag") = 0 := by
      constructor <;> apply countP_fst_eq_zero <;> intro p hp <;>
        rcases motionMovePart_types _ _ p hp with h | h <;> simp [h]
    have hd1 : ([(("drag" : String), di.draggedFacade.fid)] : List Fired).countP
        (fun p => p.1 == "dragstart") = 0 := by simp [List.countP_cons]
    have hd2 : ([(("drag" : String), di.draggedFacade.fid)] : List Fired).countP
        (fun p => p.1 == "drag") = 1 := by simp [List.countP_cons]
    omega
  · -- primary press arms the drag gesture
    intro hi hGate hTarget hDrag he
    have hg1 : (e.etype == "touchstart" && e.touches.length == 1) = false := by
      rw [he]; rfl
    have hg5 : (isTouchEndOrCancel e && e.changedTouches.length == 1) = false := by
      unfold isTouchEndOrCancel; rw [he]; rfl
    have hg4 : (hi.facade.node.hasOnDragStart &&
        (e.etype == "mousedown" || e.etype == "touchstart")) = true := by
      rw [he, hDrag]; rfl
    simp [onPointerActionEvent, hg1, hGate, hTarget, hg5, hg4]
  · -- release: drop (if resolved) before unconditional dragend, state cleared
    intro di hdi
    simp [onDropEvent, hdi]
  · -- no drag state: no drag-class dispatches
    intro hdi p hp
    cases hg : motionGate reg with
    | false => rw [motion_nogate reg hits st e hg] at hp; simp at hp
    | true =>
      rw [motion_fired_eq reg hits st e hg] at hp
      simp only [hdi, motionDragPart, Option.isSome_none,
        List.nil_append] at hp
      rcases List.mem_append.mp hp with hp | hp
      · rcases motionTransPart_types_nodrag _ _ p hp with h | h <;> rw [h] <;>
          refine ⟨by decide, by decide, by decide, by decide, by decide⟩
      · have h := motionMovePart_types_nodrag _ p hp
        rw [h]
        exact ⟨by decide, by decide, by decide, by decide, by decide⟩

/-- Witness for C5: releasing over facade 1 while dragging facade 3 fires
`drop` on 1 then `dragend` on 3 and clears the drag state and the external
release listeners. -/
theorem C5_drag_lifecycle_witness :
    (⟨none, some ⟨⟨⟨3, true, some true, true⟩, []⟩, true⟩, none, true⟩ :
        PState).dragInfo =
      some ⟨⟨⟨3, true, some true, true⟩, []⟩, true⟩ ∧
    (onDropEvent [⟨"mouseover", 1, ⟨7, .normal⟩⟩]
        (some [⟨⟨⟨1, true, some true, false⟩, []⟩, 5, none⟩])
        ⟨none, some ⟨⟨⟨3, true, some true, true⟩, []⟩, true⟩, none, true⟩
        ⟨"mouseup", [], [], true⟩).2 =
      [(("drop" : String), 1), (("dragend" : String), 3)] ∧
    (onDropEvent [⟨"mouseover", 1, ⟨7, .normal⟩⟩]
        (some [⟨⟨⟨1, true, some true, false⟩, []⟩, 5, none⟩])
        ⟨none, some ⟨⟨⟨3, true, some true, true⟩, []⟩, true⟩, none, true⟩
        ⟨"mouseup", [], [], true⟩).1.dragInfo = none := by
  have h := (C5_drag_lifecycle [⟨"mouseover", 1, ⟨7, .normal⟩⟩]
    (some [⟨⟨⟨1, true, some true, false⟩, []⟩, 5, none⟩]) 0
    ⟨none, some ⟨⟨⟨3, true, some true, true⟩, []⟩, true⟩, none, true⟩
    ⟨"mouseup", [], [], true⟩).2.2.2.1
    ⟨⟨⟨3, true, some true, true⟩, []⟩, true⟩ rfl
  refine ⟨rfl, ?_, h.2.1⟩
  rw [h.1]
  decide

theorem lookupSphere_cons (a : Nat × Sphere) (rest : Octree) (fid : Nat) :
    lookupSphere (a :: rest) fid =
      if a.1 = fid then some a.2 else lookupSphere rest fid := by
  by_cases h : a.1 = fid
  · have hb : (a.1 == fid) = true := by simpa using h
    simp [lookupSphere, List.find?_cons, hb, h]
  · have hb : (a.1 == fid) = false := by simpa using h
    simp [lookupSphere, List.find?_cons, hb, h]

theorem removeSphere_cons (a : Nat × Sphere) (rest : Octree) (fid : Nat) :
    removeSphere (a :: rest) fid =
      if a.1 = fid then removeSphere rest fid
      else a :: removeSphere rest fid := by
  by_cases h : a.1 = fid <;> simp [removeSphere, List.filter_cons, h]

theorem lookup_removeSphere_self (o : Octree) (fid : Nat) :
    lookupSphere (removeSphere o fid) fid = none := by
  induction o with
  | nil => rfl
  | cons a rest ih =>
    rw [removeSphere_cons]
    by_cases h : a.1 = fid
    · rwa [if_pos h]
    · rw [if_neg h, lookupSphere_cons, if_neg h]
      exact ih

theorem lookup_removeSphere_other (o : Octree) (fid fid2 : Nat)
    (hne : fid2 ≠ fid) :
    lookupSphere (removeSphere o fid2) fid = lookupSphere o fid := by
  induction o with
  | nil => rfl
  | cons a rest ih =>
    rw [removeSphere_cons, lookupSphere_cons]
    by_cases h : a.1 = fid2
    · rw [if_pos h, if_neg (by rw [h]; exact hne), ih]
    · rw [if_neg h, lookupSphere_cons]
      by_cases h2 : a.1 = fid
      · rw [if_pos h2, if_pos h2]
      · rw [if_neg h2, if_neg h2, ih]

theorem lookup_putSphere_self (o : Octree) (fid : Nat) (s : Sphere) :
    lookupSphere (putSphere o fid s) fid = some s := by
  unfold putSphere
  rw [lookupSphere_cons, if_pos rfl]

theorem lookup_putSphere_other (o : Octree) (fid fid2 : Nat) (s : Sphere)
    (hne : fid2 ≠ fid) :
    lookupSphere (putSphere o fid2 s) fid = lookupSphere o fid := by
  unfold putSphere
  rw [lookupSphere_cons, if_neg (by simpa using hne)]
  exact lookup_removeSphere_other o fid fid2 hne

theorem applyPut_lookup_other (facades : List Facade3D) (rids : List Nat)
    (o : Octree) (p fid : Nat) (hne : p ≠ fid) :
    lookupSphere (applyPut facades rids o p) fid = lookupSphere o fid := by
  cases hff : findFacade3D facades p with
  | none => simp only [applyPut, hff]
  | some f =>
    simp only [applyPut, hff]
    by_cases hc : (!f.isDestroying && !rids.contains p) = true
    · rw [if_pos hc]
      cases hbs : f.boundingSphere with
      | some s => exact lookup_putSphere_other o fid p s hne
      | none => exact lookup_removeSphere_other o fid p hne
    · rw [if_neg hc]

theorem applyPut_skip_inRemove (facades : List Facade3D) (rids : List Nat)
    (o : Octree) (fid : Nat) (h : fid ∈ rids) :
    applyPut facades rids o fid = o := by
  cases hff : findFacade3D facades fid with
  | none => simp only [applyPut, hff]
  | some f =>
    simp only [applyPut, hff]
    have hc : rids.contains fid = true := List.elem_eq_true_of_mem h
    rw [if_neg (by simp [hc]; exact fun _ => h)]

theorem applyPut_skip_obsolete (facades : List Facade3D) (rids : List Nat)
    (o : Octree) (fid : Nat)
    (h : findFacade3D facades fid = none ∨
      ∃ f, findFacade3D facades fid = some f ∧ f.isDestroying = true) :
    applyPut facades rids o fid = o := by
  rcases h with h | ⟨f, hf, hd⟩
  · simp only [applyPut, h]
  · simp only [applyPut, hf]
    rw [if_neg (by simp [hd])]

theorem applyPut_nosphere (facades : List Facade3D) (rids : List Nat)
    (o : Octree) (fid : Nat) (f : Facade3D)
    (hf : findFacade3D facades fid = some f) (hd : f.isDestroying = false)
    (hs : f.boundingSphere = none) (hr : fid ∉ rids) :
    applyPut facades rids o fid = removeSphere o fid := by
  have hc : rids.contains fid = false := by
    cases hcc : rids.contains fid with
    | false => rfl
    | true => exact absurd (List.mem_of_elem_eq_true hcc) hr
  simp only [applyPut, hf]
  rw [if_pos (by simp [hd, hc]; exact hr), hs]

theorem removeFold_none (rids : List Nat) :
    ∀ (o : Octree) (fid : Nat), lookupSphere o fid = none →
      lookupSphere (rids.foldl removeSphere o) fid = none := by
  induction rids with
  | nil => intro o fid h; exact h
  | cons r rest ih =>
    intro o fid h
    rw [List.foldl_cons]
    apply ih
    by_cases hr : r = fid
    · rw [hr]; exact lookup_removeSphere_self o fid
    · rw [lookup_removeSphere_other o fid r hr]; exact h

theorem removeFold_self (rids : List Nat) :
    ∀ (o : Octree) (fid : Nat), fid ∈ rids →
      lookupSphere (rids.foldl removeSphere o) fid = none := by
  induction rids with
  | nil => intro o fid h; simp at h
  | cons r rest ih =>
    intro o fid h
    rw [List.foldl_cons]
    rcases List.mem_cons.mp h with h | h
    · subst h
      exact removeFold_none rest _ fid (lookup_removeSphere_self o fid)
    · exact ih _ fid h

theorem removeFold_other (rids : List Nat) :
    ∀ (o : Octree) (fid : Nat), fid ∉ rids →
      lookupSphere (rids.foldl removeSphere o) fid = lookupSphere o fid := by
  induction rids with
  | nil => intro o fid _; rfl
  | cons r rest ih =>
    intro o fid h
    rw [List.foldl_cons]
    have hr : r ≠ fid := fun hx => h (hx ▸ List.mem_cons_self r rest)
    rw [ih _ fid (fun hx => h (List.mem_cons_of_mem r hx)),
      lookup_removeSphere_other o fid r hr]

theorem putFold_skip (facades : List Facade3D) (rids : List Nat) (fid : Nat)
    (hsk : ∀ o, applyPut facades rids o fid = o) :
    ∀ (l : List Nat) (o : Octree),
      lookupSphere (l.foldl (applyPut facades rids) o) fid =
        lookupSphere o fid := by
  intro l
  induction l with
  | nil => intro o; rfl
  | cons p rest ih =>
    intro o
    rw [List.foldl_cons, ih]
    by_cases hp : p = fid
    · rw [hp, hsk o]
    · exact applyPut_lookup_other facades rids o p fid hp

theorem putFold_notmem (facades : List Facade3D) (rids : List Nat) (fid : Nat) :
    ∀ (l : List Nat) (o : Octree), fid ∉ l →
      lookupSphere (l.foldl (applyPut facades rids) o) fid =
        lookupSphere o fid := by
  intro l
  induction l with
  | nil => intro o _; rfl
  | cons p rest ih =>
    intro o h
    rw [List.foldl_cons, ih _ (fun hx => h (List.mem_cons_of_mem p hx))]
    exact applyPut_lookup_other facades rids o p fid
      (fun hx => h (hx ▸ List.mem_cons_self p rest))

theorem putFold_forceNone (facades : List Facade3D) (rids : List Nat)
    (fid : Nat) (hrm : ∀ o, lookupSphere (applyPut facades rids o fid) fid = none) :
    ∀ (l : List Nat) (o : Octree), fid ∈ l →
      lookupSphere (l.foldl (applyPut facades rids) o) fid = none := by
  intro l
  induction l with
  | nil => intro o h; simp at h
  | cons p rest ih =>
    intro o h
    rw [List.foldl_cons]
    by_cases hmem : fid ∈ rest
    · exact ih _ hmem
    · rcases List.mem_cons.mp h with h | h
      · subst h
        rw [putFold_notmem facades rids fid rest _ hmem]
        exact hrm o
      · exact absurd h hmem

/-- C6, amended.  When the pending changeset is flushed (exactly once — the
changeset field is cleared, and a flush with no pending changeset leaves the
index untouched): every id in the remove set has no entry afterwards, even if
it is also in the put set (remove wins); a put for an id whose owning facade
is untracked or marked destroyed is skipped, leaving any existing entry for
that id unchanged (the source does not downgrade this case to a removal); and
a put for a live tracked id whose current bounding sphere is absent results in
removal of that id from the index rather than insertion. -/
theorem C6_flush (facades : List Facade3D) (cs : Changeset)
    (octree : Option Octree) :
    (∀ id ∈ cs.removeIds,
      lookupSphere ((updateOctree facades (some cs) octree).1.getD []) id =
        none) ∧
    (∀ id, id ∈ cs.putIds → id ∉ cs.removeIds →
      (findFacade3D facades id = none ∨
        ∃ f, findFacade3D facades id = some f ∧ f.isDestroying = true) →
      lookupSphere ((updateOctree facades (some cs) octree).1.getD []) id =
        lookupSphere (octree.getD []) id) ∧
    (∀ id f, id ∈ cs.putIds → id ∉ cs.removeIds →
      findFacade3D facades id = some f → f.isDestroying = false →
      f.boundingSphere = none →
      lookupSphere ((updateOctree facades (some cs) octree).1.getD []) id =
        none) ∧
    (updateOctree facades (some cs) octree).2 = none ∧
    updateOctree facades none (updateOctree facades (some cs) octree).1 =
      ((updateOctree facades (some cs) octree).1, none) := by
  refine ⟨?_, ?_, ?_, rfl, rfl⟩
  · intro id hid
    simp only [updateOctree, Option.getD_some]
    rw [putFold_skip facades cs.removeIds id
      (fun o => applyPut_skip_inRemove facades cs.removeIds o id hid)]
    exact removeFold_self cs.removeIds _ id hid
  · intro id _ hnr hobs
    simp only [updateOctree, Option.getD_some]
    rw [putFold_skip facades cs.removeIds id
      (fun o => applyPut_skip_obsolete facades cs.removeIds o id hobs)]
    exact removeFold_other cs.removeIds _ id hnr
  · intro id f hput hnr hf hd hs
    simp only [updateOctree, Option.getD_some]
    exact putFold_forceNone facades cs.removeIds id
      (fun o => by
        rw [applyPut_nosphere facades cs.removeIds o id f hf hd hs hnr]
        exact lookup_removeSphere_self o id)
      cs.putIds _ hput

/-- Counterexample for C6 as stated: id 1 is queued only under `put`, its
facade is tracked but marked destroying, and it already has an entry in the
index.  The claim says the put is downgraded to a removal, but after the flush
the stale entry is still present. -/
theorem C6_flush_counterexample :
    lookupSphere
      ((updateOctree [⟨1, true, some ⟨0, 0, 0, 1⟩⟩] (some ⟨[], [1]⟩)
          (some [(1, ⟨0, 0, 0, 1⟩)])).1.getD []) 1 = some ⟨0, 0, 0, 1⟩ ∧
    ¬lookupSphere
      ((updateOctree [⟨1, true, some ⟨0, 0, 0, 1⟩⟩] (some ⟨[], [1]⟩)
          (some [(1, ⟨0, 0, 0, 1⟩)])).1.getD []) 1 = none := by
  refine ⟨by decide, by decide⟩

/-- Witness for C6: a changeset with id 2 in both `put` and `remove` (remove
wins: no entry for 2 afterwards) and a put-only id 1 whose facade is
destroying (its stale entry survives the flush). -/
theorem C6_flush_witness :
    (2 ∈ ([2] : List Nat) ∧
      lookupSphere ((updateOctree [⟨1, true, some ⟨0, 0, 0, 1⟩⟩]
          (some ⟨[2], [1, 2]⟩)
          (some [(1, ⟨0, 0, 0, 1⟩), (2, ⟨5, 5, 5, 2⟩)])).1.getD []) 2 =
        none) ∧
    lookupSphere ((updateOctree [⟨1, true, some ⟨0, 0, 0, 1⟩⟩]
        (some ⟨[2], [1, 2]⟩)
        (some [(1, ⟨0, 0, 0, 1⟩), (2, ⟨5, 5, 5, 2⟩)])).1.getD []) 1 =
      lookupSphere ((some [(1, ⟨(0 : Int), 0, 0, 1⟩),
        (2, ⟨5, 5, 5, 2⟩)] : Option Octree).getD []) 1 := by
  refine ⟨⟨by decide, ?_⟩, ?_⟩
  · exact (C6_flush [⟨1, true, some ⟨0, 0, 0, 1⟩⟩] ⟨[2], [1, 2]⟩
      (some [(1, ⟨0, 0, 0, 1⟩), (2, ⟨5, 5, 5, 2⟩)])).1 2 (by decide)
  · exact (C6_flush [⟨1, true, some ⟨0, 0, 0, 1⟩⟩] ⟨[2], [1, 2]⟩
      (some [(1, ⟨0, 0, 0, 1⟩), (2, ⟨5, 5, 5, 2⟩)])).2.1 1 (by decide)
      (by decide) (Or.inr ⟨⟨1, true, some ⟨0, 0, 0, 1⟩⟩, by decide, rfl⟩)

/-- C10 (code bug).  `BasicThenable` can settle twice: resolving with a
misbehaving thenable whose `then` synchronously calls its fulfill callback
with 1 and then its reject callback with 2 first assigns the fulfilled state
`(1, 1)` and then overwrites it with the rejected state `(-1, 2)` — the two
`oneTime` wrappers handed to the adopted thenable are independent, and
`complete` does not re-check `completeCalled`, contradicting the file's own
claim of full Promises/A+ conformance (§2.3.3.3.3: only the first such call
may take effect).  The guarded outer entry points do behave: a `reject` after
a plain `resolve` leaves the settled state untouched. -/
theorem C10_thenable_double_settle :
    ((tResolve (.thenable [(true, .plain 1), (false, .plain 2)])
        OuterState.init).ts.settles = [(1, .plain 1), (-1, .plain 2)] ∧
     (tResolve (.thenable [(true, .plain 1), (false, .plain 2)])
        OuterState.init).ts.state = -1 ∧
     (tResolve (.thenable [(true, .plain 1), (false, .plain 2)])
        OuterState.init).ts.value = some (.plain 2)) ∧
    (tReject (.plain 9) (tResolve (.plain 1) OuterState.init)).ts =
      (tResolve (.plain 1) OuterState.init).ts := by
  have h1 : tResolve (.thenable [(true, .plain 1), (false, .plain 2)])
      OuterState.init =
      ⟨complete 1 (.thenable [(true, .plain 1), (false, .plain 2)])
        TState.init, true, false⟩ := by
    simp [tResolve, OuterState.init, TState.init]
  have h2 : complete 1 (.thenable [(true, .plain 1), (false, .plain 2)])
      TState.init =
      runScript [(true, .plain 1), (false, .plain 2)] false false
        ⟨0, none, 1, []⟩ := by
    rw [complete]
    norm_num [TState.init]
  have h3 : runScript [(true, .plain 1), (false, .plain 2)] false false
      ⟨0, none, 1, []⟩ =
      runScript [(false, .plain 2)] true false
        (complete 1 (.plain 1) ⟨0, none, 1, []⟩) := by
    rw [runScript]
    norm_num
  have h4 : complete 1 (.plain 1) ⟨0, none, 1, []⟩ =
      ⟨1, some (.plain 1), 2, [(1, .plain 1)]⟩ := by
    rw [complete]
    norm_num
  have h5 : runScript [(false, .plain 2)] true false
      ⟨1, some (.plain 1), 2, [(1, .plain 1)]⟩ =
      runScript [] true true
        (complete (-1) (.plain 2) ⟨1, some (.plain 1), 2, [(1, .plain 1)]⟩) := by
    conv_lhs => rw [runScript]
    norm_num
  have h6 : complete (-1) (.plain 2) ⟨1, some (.plain 1), 2, [(1, .plain 1)]⟩ =
      ⟨-1, some (.plain 2), 3, [(1, .plain 1), (-1, .plain 2)]⟩ := by
    rw [complete]
    norm_num
  have h7 : runScript [] true true
      (⟨-1, some (.plain 2), 3, [(1, .plain 1), (-1, .plain 2)]⟩ : TState) =
      ⟨-1, some (.plain 2), 3, [(1, .plain 1), (-1, .plain 2)]⟩ := by
    rw [runScript]
  have ha : tResolve (.plain 1) OuterState.init =
      ⟨⟨1, some (.plain 1), 1, [(1, .plain 1)]⟩, true, false⟩ := by
    have hb : complete 1 (.plain 1) ⟨0, none, 0, []⟩ =
        ⟨1, some (.plain 1), 1, [(1, .plain 1)]⟩ := by
      rw [complete]
      norm_num
    simp [tResolve, OuterState.init, TState.init, hb]
  refine ⟨?_, ?_⟩
  · rw [h1, h2, h3, h4, h5, h6, h7]
    exact ⟨rfl, rfl, rfl⟩
  · rw [ha]
    simp [tReject]

end Troika

